import Mathlib

/-!
# Coralogix SDK transport: retry loop, error classification, configuration

A shallow embedding of `sdk/errors/errors.go`, `sdk/config/config.go`,
`sdk/internal/rest-client/rest-client.go` and `sdk/client.go`.

* Go `int` and `time.Duration` values are `Int`; the one place where 64-bit
  wrap-around is observable (the backoff product) wraps explicitly.
* Go `error` values are the inductive `GoError`; `nil` is `none`.
* The network, the JSON codec and the context are the environment: one
  `Exchange` per attempt says what the libraries answered, and a `Context`
  says at which `select` the cancellation signal was observed.
-/

set_option autoImplicit false

namespace errors

/-! ## sdk/errors/errors.go -/

def ErrBadRequest : String := "bad_request"
def ErrUnauthorized : String := "unauthorized"
def ErrForbidden : String := "forbidden"
def ErrNotFound : String := "not_found"
def ErrRateLimit : String := "rate_limit"
def ErrServerError : String := "server_error"
def ErrNetworkError : String := "network_error"
def ErrInvalidInput : String := "invalid_input"
def ErrContextCanceled : String := "context_canceled"
def ErrContextDeadlineExceeded : String := "context_deadline_exceeded"

mutual
/-- Values of the Go interface type `error` that occur in the SDK. -/
inductive GoError where
  /-- an error made by a library or by `fmt.Errorf` without `%w` -/
  | new (msg : String)
  /-- `fmt.Errorf("<msg>: %w", cause)` -/
  | wrap (msg : String) (cause : GoError)
  /-- `fmt.Errorf("<msg>: %w", nil)` -/
  | wrapNil (msg : String)
  /-- a `*errors.SDKError` stored in the interface -/
  | sdk (e : SDKError)
/-- The struct `SDKError`; the Go field `Type` is `ErrType` here. -/
inductive SDKError where
  | mk (StatusCode : Int) (Body : String) (ErrType : String) (Message : String) (Err : GoError)
end

def SDKError.StatusCode : SDKError → Int
  | .mk s _ _ _ _ => s

def SDKError.Body : SDKError → String
  | .mk _ b _ _ _ => b

def SDKError.ErrType : SDKError → String
  | .mk _ _ t _ _ => t

def SDKError.Message : SDKError → String
  | .mk _ _ _ m _ => m

def SDKError.Err : SDKError → GoError
  | .mk _ _ _ _ e => e

/-- The method `(*SDKError).Unwrap`. -/
def SDKError.Unwrap (e : SDKError) : GoError := e.Err

/-- The method `Unwrap` of an `error`, as `errors.Unwrap` sees it. -/
def GoError.Unwrap : GoError → Option GoError
  | .new _ => none
  | .wrap _ c => some c
  | .wrapNil _ => none
  | .sdk e => some e.Err

/-- The type assertion `err.(*errors.SDKError)`. -/
def GoError.asSDKError : GoError → Option SDKError
  | .sdk e => some e
  | _ => none

def StatusBadRequest : Int := 400
def StatusUnauthorized : Int := 401
def StatusForbidden : Int := 403
def StatusNotFound : Int := 404
def StatusTooManyRequests : Int := 429

/-- getErrorTypeFromStatus maps HTTP status codes to error types. -/
def getErrorTypeFromStatus (statusCode : Int) : String :=
  if statusCode ≥ 400 ∧ statusCode < 500 then
    if statusCode = StatusBadRequest then ErrBadRequest
    else if statusCode = StatusUnauthorized then ErrUnauthorized
    else if statusCode = StatusForbidden then ErrForbidden
    else if statusCode = StatusNotFound then ErrNotFound
    else if statusCode = StatusTooManyRequests then ErrRateLimit
    else ErrBadRequest
  else if statusCode ≥ 500 then ErrServerError
  else ErrNetworkError

/-- NewSDKError creates a new SDKError from an HTTP response. -/
def NewSDKError (statusCode : Int) (body : String) (err : GoError) : SDKError :=
  .mk statusCode body (getErrorTypeFromStatus statusCode)
    ("API request failed with status " ++ toString statusCode) err

/-- NewInputError creates a new SDKError for input validation errors. -/
def NewInputError (err : GoError) : SDKError :=
  .mk 0 "" ErrInvalidInput "Invalid input parameters" err

end errors

namespace config

/-! ## sdk/config/config.go -/

/-- `time.Millisecond`, in nanoseconds. -/
def Millisecond : Int := 1000000

/-- `time.Second`, in nanoseconds. -/
def Second : Int := 1000000000

def HeaderKeys.ContentType : String := "Content-Type"
def HeaderKeys.Authorization : String := "Authorization"
def HeaderKeys.Accept : String := "Accept"
def HeaderKeys.CorrelationID : String := "X-Correlation-ID"

def HeaderValues.JSONContentType : String := "application/json"

/-- `fmt.Sprintf(HeaderValues.AuthFormat, key)` with `AuthFormat = "Bearer %s"`. -/
def HeaderValues.AuthFormat (key : String) : String := "Bearer " ++ key

def Defaults.MaxRetries : Int := 3
def Defaults.Backoff : Int := 100 * Millisecond
def Defaults.Timeout : Int := 5 * Second

def V1 : String := "v1"
def V3 : String := "v3"
def AlertsPath : String := "alert-defs"
def WebhooksPath : String := "outgoing-webhooks"

/-- GetResourcePath builds a path with version and resource
(`fmt.Sprintf("/%s/%s", version, resource)`). -/
def GetResourcePath (version resource : String) : String :=
  "/" ++ version ++ "/" ++ resource

/-- GetBaseURL returns the base URL for a specific region
(`BaseURLFormat = "https://api.%s.coralogix.com/mgmt/openapi"`). -/
def GetBaseURL (region : String) : String :=
  "https://api." ++ region ++ ".coralogix.com/mgmt/openapi"

end config

namespace http

/-! ## The part of Go's net/http that `doRequest` drives -/

/-- Token bytes of a header field name (`validHeaderFieldByte` of net/textproto):
letters, digits and the fifteen punctuation bytes of RFC 7230, given by code. -/
def validHeaderFieldByte (c : Char) : Bool :=
  c.isAlphanum ||
    [33, 35, 36, 37, 38, 39, 42, 43, 45, 46, 94, 95, 96, 124, 126].contains c.toNat

/-- The case loop of `canonicalMIMEHeaderKey`: upper case at the start and
after each dash, lower case elsewhere. -/
def canonLoop : Bool → List Char → List Char
  | _, [] => []
  | upper, c :: cs =>
    let c1 := if upper && c.isLower then c.toUpper
      else if !upper && c.isUpper then c.toLower else c
    c1 :: canonLoop (c1 == '-') cs

/-- `textproto.CanonicalMIMEHeaderKey`: a key with a byte that is not a token
byte is returned unchanged, any other key is put in canonical case. -/
def CanonicalMIMEHeaderKey (s : String) : String :=
  if s.data.all validHeaderFieldByte then String.mk (canonLoop true s.data) else s

/-- `http.Header`, with the one value `Set` leaves under each key. -/
abbrev Header := List (String × String)

/-- `Header.Set`: the canonical key now holds exactly `value`. -/
def Header.Set (h : Header) (key value : String) : Header :=
  (CanonicalMIMEHeaderKey key, value) ::
    h.filter (fun p => p.1 != CanonicalMIMEHeaderKey key)

/-- The map read `h[key]` on an already canonical key. -/
def Header.lookup (h : Header) (key : String) : Option String :=
  List.lookup key h

/-- `http.Request`, as far as `doRequest` fills it. -/
structure Request where
  Method : String
  URL : String
  Header : Header
  Body : Option String

/-- `http.Client`. -/
structure Client where
  Timeout : Int

end http

open errors

namespace internal

/-! ## sdk/internal/rest-client/rest-client.go -/

/-- RestClient handles HTTP communication with the API.  `headers` is the Go
map, listed in the order in which `range` visits its entries. -/
structure RestClient where
  base : String
  apiKey : String
  httpClient : http.Client
  maxRetries : Int
  backoff : Int
  headers : List (String × String)

/-- The map assignment `m[key] = value`. -/
def mapSet (m : List (String × String)) (key value : String) : List (String × String) :=
  if m.any (fun p => p.1 == key) then
    m.map (fun p => if p.1 == key then (key, value) else p)
  else m ++ [(key, value)]

/-- RestClientOption defines function type for options. -/
abbrev RestClientOption := RestClient → RestClient

/-- WithMaxRetries sets the maximum number of retries. -/
def WithMaxRetries (maxRetries : Int) : RestClientOption := fun rc =>
  if maxRetries ≥ 0 then { rc with maxRetries := maxRetries } else rc

/-- WithBackoff sets the backoff duration between retries. -/
def WithBackoff (backoff : Int) : RestClientOption := fun rc =>
  if backoff > 0 then { rc with backoff := backoff } else rc

/-- WithTimeout sets the HTTP client timeout. -/
def WithTimeout (timeout : Int) : RestClientOption := fun rc =>
  if timeout > 0 then { rc with httpClient := { rc.httpClient with Timeout := timeout } } else rc

/-- WithHeader adds a custom header to all requests. -/
def WithHeader (key value : String) : RestClientOption := fun rc =>
  { rc with headers := mapSet rc.headers key value }

/-- NewRestClient creates a new REST client with the given configuration. -/
def NewRestClient (baseURL apiKey : String) (options : List RestClientOption) : RestClient :=
  options.foldl (fun client option => option client)
    { base := baseURL
      apiKey := apiKey
      maxRetries := config.Defaults.MaxRetries
      backoff := config.Defaults.Backoff
      httpClient := { Timeout := config.Defaults.Timeout }
      headers := [] }

/-- What the libraries answer during one call of `doRequest`. -/
structure Exchange where
  /-- `json.Marshal(in)`, asked only when `in != nil` -/
  marshal : Except GoError String
  /-- the error of `http.NewRequestWithContext` -/
  newRequestErr : Option GoError
  /-- the error of `rc.httpClient.Do(req)` -/
  doErr : Option GoError
  /-- `resp.StatusCode` -/
  StatusCode : Int
  /-- `io.ReadAll(resp.Body)` -/
  readAll : Except GoError String
  /-- the error of `json.Unmarshal(bodyBytes, out)`, asked only when `out != nil` -/
  unmarshalErr : Option GoError

/-- The result of one attempt: the returned `error` and the request that was
handed to `httpClient.Do`, if the attempt got that far. -/
structure Attempt where
  err : Option GoError
  sent : Option http.Request

/-- The request `doRequest` builds (lines 146-159): default headers first,
then every custom header in `range` order. -/
def buildRequest (rc : RestClient) (path method : String) (body : Option String) :
    http.Request :=
  let url := rc.base ++ path
  let h0 : http.Header := []
  let h1 := h0.Set config.HeaderKeys.ContentType config.HeaderValues.JSONContentType
  let h2 := h1.Set config.HeaderKeys.Authorization (config.HeaderValues.AuthFormat rc.apiKey)
  let h3 := rc.headers.foldl (fun h kv => http.Header.Set h kv.1 kv.2) h2
  { Method := method, URL := url, Header := h3, Body := body }

/-- doRequest performs a single HTTP request.  `hasIn` is `in != nil` and
`hasOut` is `out != nil`. -/
def doRequest (rc : RestClient) (path method : String) (hasIn hasOut : Bool)
    (x : Exchange) : Attempt :=
  match (if hasIn then x.marshal.map some else .ok none) with
  | .error err => ⟨some (.sdk (NewInputError (.wrap "marshal payload" err))), none⟩
  | .ok body =>
    match x.newRequestErr with
    | some err => ⟨some (.sdk (NewInputError (.wrap "create request" err))), none⟩
    | none =>
      let req := buildRequest rc path method body
      match x.doErr with
      | some err => ⟨some (.sdk (NewSDKError 0 "" (.wrap "do request" err))), some req⟩
      | none =>
        match x.readAll with
        | .error err =>
          ⟨some (.sdk (NewSDKError 0 "" (.wrap "read response body" err))), some req⟩
        | .ok bodyBytes =>
          if x.StatusCode < 200 ∨ x.StatusCode ≥ 300 then
            ⟨some (.sdk (NewSDKError x.StatusCode bodyBytes
              (.new ("unexpected status code: " ++ toString x.StatusCode)))), some req⟩
          else if !hasOut then ⟨none, some req⟩
          else
            match x.unmarshalErr with
            | some err =>
              ⟨some (.sdk (NewSDKError x.StatusCode bodyBytes
                (.wrap "unmarshal response" err))), some req⟩
            | none => ⟨none, some req⟩

/-- A non-nil `context.Context`, seen through the two `select` statements of
`Request`. -/
structure Context where
  /-- at the `select` of the backoff before attempt `k`, `<-ctx.Done()` is taken -/
  doneInBackoff : Nat → Bool
  /-- at the `select` after the failed attempt `k`, `<-ctx.Done()` is ready -/
  doneAfter : Nat → Bool
  /-- `ctx.Err()` -/
  Err : GoError

/-- Signed 64-bit wrap-around. -/
def wrapInt64 (x : Int) : Int := (x + 2 ^ 63) % 2 ^ 64 - 2 ^ 63

/-- `time.Duration(1 << uint(s))`: the shift is done on an int64. -/
def shiftLeftOne (s : Nat) : Int :=
  if s < 63 then 2 ^ s else if s = 63 then -(2 ^ 63) else 0

/-- The duration of line 94, `rc.backoff * time.Duration(1<<uint(attempt-1))`. -/
def backoffSleep (rc : RestClient) (attempt : Nat) : Int :=
  wrapInt64 (rc.backoff * shiftLeftOne (attempt - 1))

/-- The retry test of lines 115-121: the loop goes on only when the error is
an SDKError whose status is 429 or in [500,600). -/
def shouldRetry (lastErr : GoError) : Bool :=
  match lastErr.asSDKError with
  | some sdkErr =>
    sdkErr.StatusCode == 429 || (sdkErr.StatusCode ≥ 500 && sdkErr.StatusCode < 600)
  | none => false

/-- What `Request` does that can be seen from outside. -/
inductive Event where
  /-- a timer of `d` nanoseconds was started before attempt `attempt` -/
  | sleep (attempt : Nat) (d : Int)
  /-- `doRequest` was called for attempt `attempt` -/
  | attempt (attempt : Nat) (sent : Option http.Request)

/-- The returned `error` of `Request` and the events of the call, in order. -/
structure Run where
  err : Option GoError
  trace : List Event

/-- The number of calls of `doRequest` in a trace. -/
def attemptCount : List Event → Nat
  | [] => 0
  | .attempt _ _ :: t => attemptCount t + 1
  | .sleep _ _ :: t => attemptCount t

/-- The `for` loop of `Request` (lines 91-132).  `remaining` counts the
iterations the loop test `attempt <= rc.maxRetries` still admits, so
`remaining = 0` is the loop exit of line 132.  The counter `attempt` is a
`Nat`: Go's `attempt++` wraps only after 2^63 iterations. -/
def retryLoop (rc : RestClient) (ctx : Context) (path method : String) (hasIn hasOut : Bool)
    (world : Nat → Exchange) : Nat → Nat → Option GoError → Run
  | 0, _, lastErr =>
    let msg := "failed after " ++ toString rc.maxRetries ++ " retries"
    match lastErr with
    | some e => ⟨some (.wrap msg e), []⟩
    | none => ⟨some (.wrapNil msg), []⟩
  | remaining + 1, attempt, _ =>
    let sleeps := if attempt > 0 then [Event.sleep attempt (backoffSleep rc attempt)] else []
    if attempt > 0 && ctx.doneInBackoff attempt then
      ⟨some (.sdk (NewSDKError 0 "" (.wrap "context canceled during retry" ctx.Err))), sleeps⟩
    else
      let a := doRequest rc path method hasIn hasOut (world attempt)
      let here := sleeps ++ [Event.attempt attempt a.sent]
      match a.err with
      | none => ⟨none, here⟩
      | some lastErr =>
        if !shouldRetry lastErr then ⟨some lastErr, here⟩
        else if ctx.doneAfter attempt then
          ⟨some (.sdk (NewSDKError 0 "" (.wrap "context canceled" ctx.Err))), here⟩
        else
          let rest := retryLoop rc ctx path method hasIn hasOut world remaining (attempt + 1)
            (some lastErr)
          ⟨rest.err, here ++ rest.trace⟩

/-- Request executes an HTTP request with the given method.  `ctx = none` is
the nil context; `world k` is what the libraries answer during attempt `k`. -/
def RestClient.Request (rc : RestClient) (ctx : Option Context) (path method : String)
    (hasIn hasOut : Bool) (world : Nat → Exchange) : Run :=
  match ctx with
  | none => ⟨some (.sdk (NewInputError (.new "context cannot be nil"))), []⟩
  | some ctx => retryLoop rc ctx path method hasIn hasOut world (rc.maxRetries + 1).toNat 0 none

/-- The events of `k` consecutive iterations that all went on to a retry,
the first of them being iteration `attempt`. -/
def retriedPrefix (rc : RestClient) (path method : String) (hasIn hasOut : Bool)
    (world : Nat → Exchange) : Nat → Nat → List Event
  | 0, _ => []
  | k + 1, attempt =>
    ((if attempt > 0 then [Event.sleep attempt (backoffSleep rc attempt)] else []) ++
      [Event.attempt attempt (doRequest rc path method hasIn hasOut (world attempt)).sent]) ++
    retriedPrefix rc path method hasIn hasOut world k (attempt + 1)

/-- The value of `lastErr` after `k` iterations that started at `attempt`. -/
def lastErrAfter (rc : RestClient) (path method : String) (hasIn hasOut : Bool)
    (world : Nat → Exchange) (k attempt : Nat) (lastErr : Option GoError) : Option GoError :=
  if k = 0 then lastErr else (doRequest rc path method hasIn hasOut (world (attempt + k - 1))).err

/-- The context is not seen cancelled at any `select` of the iterations
`attempt, ..., attempt + k - 1`. -/
def Context.quietDuring (ctx : Context) (attempt k : Nat) : Prop :=
  ∀ i, i < k → (attempt + i > 0 → ctx.doneInBackoff (attempt + i) = false) ∧
    ctx.doneAfter (attempt + i) = false

/-- The value of the last entry of a header map, in `range` order, whose key
has the canonical form `name`. -/
def overriding (name : String) : List (String × String) → Option String
  | [] => none
  | kv :: rest =>
    match overriding name rest with
    | some v => some v
    | none => if http.CanonicalMIMEHeaderKey kv.1 = name then some kv.2 else none

/-- A context whose cancellation signal is never seen. -/
def quietContext : Context :=
  { doneInBackoff := fun _ => false, doneAfter := fun _ => false, Err := .new "context canceled" }

/-- An exchange in which every library call succeeds and the server answers
`status` with `body`. -/
def respond (status : Int) (body : String) : Exchange :=
  { marshal := .ok "null", newRequestErr := none, doErr := none, StatusCode := status,
    readAll := .ok body, unmarshalErr := none }

end internal

namespace alerts

/-! ## sdk/alerts/v3/alerts-client.go -/

/-- AlertsClient provides methods for interacting with the Alerts API. -/
structure AlertsClient where
  rest : internal.RestClient
  path : String

/-- NewAlertsV3Client creates a new client for Alerts. -/
def NewAlertsV3Client (restClient : internal.RestClient) : AlertsClient :=
  { rest := restClient, path := config.GetResourcePath config.V3 config.AlertsPath }

end alerts

namespace webhooks

/-! ## sdk/webhooks/v1/webhook-client.go -/

/-- WebhooksClient provides methods for interacting with the Webhooks API. -/
structure WebhooksClient where
  restClient : internal.RestClient
  path : String

/-- NewWebhooksV1Client creates a new client for Webhooks. -/
def NewWebhooksV1Client (restClient : internal.RestClient) : WebhooksClient :=
  { restClient := restClient, path := config.GetResourcePath config.V1 config.WebhooksPath }

end webhooks

namespace sdk

/-! ## sdk/client.go -/

/-- ClientCreator helps create resource-specific clients.  `headers` is the
Go map in `range` order; `restClient = none` is the nil pointer. -/
structure ClientCreator where
  region : String
  apiKey : String
  baseURL : String
  timeout : Int
  maxRetries : Int
  backoff : Int
  headers : List (String × String)
  restClient : Option internal.RestClient

/-- ClientOption defines function type for client options. -/
abbrev ClientOption := ClientCreator → ClientCreator

/-- WithTimeout sets HTTP client timeout. -/
def WithTimeout (timeout : Int) : ClientOption := fun cc =>
  if timeout > 0 then { cc with timeout := timeout } else cc

/-- WithMaxRetries sets maximum number of retries. -/
def WithMaxRetries (maxRetries : Int) : ClientOption := fun cc =>
  if maxRetries ≥ 0 then { cc with maxRetries := maxRetries } else cc

/-- WithBackoff sets backoff duration between retries. -/
def WithBackoff (backoff : Int) : ClientOption := fun cc =>
  if backoff > 0 then { cc with backoff := backoff } else cc

/-- WithHeader adds a custom header to all requests. -/
def WithHeader (key value : String) : ClientOption := fun cc =>
  { cc with headers := internal.mapSet cc.headers key value }

/-- NewClientCreator initializes a client creator with common configuration. -/
def NewClientCreator (region apiKey : String) (options : List ClientOption) : ClientCreator :=
  options.foldl (fun cc option => option cc)
    { region := region
      apiKey := apiKey
      baseURL := config.GetBaseURL region
      timeout := config.Defaults.Timeout
      maxRetries := config.Defaults.MaxRetries
      backoff := config.Defaults.Backoff
      headers := []
      restClient := none }

/-- An option as a caller of the package can write it: the fields of both
structs are unexported, so the four constructors are the only options. -/
inductive OptionCall where
  | timeout (d : Int)
  | maxRetries (n : Int)
  | backoff (d : Int)
  | header (key value : String)

/-- The `sdk` option a call stands for. -/
def OptionCall.toClientOption : OptionCall → ClientOption
  | .timeout d => WithTimeout d
  | .maxRetries n => WithMaxRetries n
  | .backoff d => WithBackoff d
  | .header k v => WithHeader k v

/-- The `internal` option a call stands for. -/
def OptionCall.toRestClientOption : OptionCall → internal.RestClientOption
  | .timeout d => internal.WithTimeout d
  | .maxRetries n => internal.WithMaxRetries n
  | .backoff d => internal.WithBackoff d
  | .header k v => internal.WithHeader k v

/-- The option carries a value its guard rejects. -/
def OptionCall.rejected : OptionCall → Bool
  | .timeout d => decide (d ≤ 0)
  | .maxRetries n => decide (n < 0)
  | .backoff d => decide (d ≤ 0)
  | .header _ _ => false

/-- The `options` slice of createRestClient (lines 88-106) when `range
cc.headers` visits the entries in the order `visit`. -/
def ClientCreator.restClientOptions (cc : ClientCreator) (visit : List (String × String)) :
    List internal.RestClientOption :=
  let options : List internal.RestClientOption := []
  let options := if cc.timeout ≠ config.Defaults.Timeout then
    options ++ [internal.WithTimeout cc.timeout] else options
  let options := if cc.maxRetries ≠ config.Defaults.MaxRetries then
    options ++ [internal.WithMaxRetries cc.maxRetries] else options
  let options := if cc.backoff ≠ config.Defaults.Backoff then
    options ++ [internal.WithBackoff cc.backoff] else options
  visit.foldl (fun options kv => options ++ [internal.WithHeader kv.1 kv.2]) options

/-- createRestClient creates a REST client for a specific resource.  The
result is the returned pointer together with the ClientCreator after the
call; the RestClient is never modified once built, so the pointer is the
value it points to. -/
def ClientCreator.createRestClient (cc : ClientCreator) : internal.RestClient × ClientCreator :=
  match cc.restClient with
  | some rc => (rc, cc)
  | none =>
    let rc := internal.NewRestClient cc.baseURL cc.apiKey (cc.restClientOptions cc.headers)
    (rc, { cc with restClient := some rc })

/-- Alerts returns an alerts client. -/
def ClientCreator.Alerts (cc : ClientCreator) : alerts.AlertsClient × ClientCreator :=
  (alerts.NewAlertsV3Client cc.createRestClient.1, cc.createRestClient.2)

/-- Webhooks returns a webhooks client. -/
def ClientCreator.Webhooks (cc : ClientCreator) : webhooks.WebhooksClient × ClientCreator :=
  (webhooks.NewWebhooksV1Client cc.createRestClient.1, cc.createRestClient.2)

end sdk

open internal

/-! ## Lemmas on the classifier and on one attempt -/

theorem attemptCount_append (xs ys : List Event) :
    attemptCount (xs ++ ys) = attemptCount xs + attemptCount ys := by
  induction xs with
  | nil => simp [attemptCount]
  | cons x xs ih =>
    cases x
    · simp [attemptCount, ih]
    · simp [attemptCount, ih]; omega

theorem attemptCount_retriedPrefix (rc : RestClient) (path method : String)
    (hasIn hasOut : Bool) (world : Nat → Exchange) (k attempt : Nat) :
    attemptCount (retriedPrefix rc path method hasIn hasOut world k attempt) = k := by
  induction k generalizing attempt with
  | zero => simp [retriedPrefix, attemptCount]
  | succ k ih =>
    simp only [retriedPrefix, attemptCount_append, ih]
    split <;> simp [attemptCount] <;> omega

/-- Every error of `doRequest` is an SDKError made by one of the two
constructors. -/
theorem doRequest_err_shape (rc : RestClient) (path method : String) (hasIn hasOut : Bool)
    (x : Exchange) (e : GoError)
    (h : (doRequest rc path method hasIn hasOut x).err = some e) :
    ∃ s : SDKError, e = .sdk s ∧
      ((∃ c, s = NewInputError c) ∨ (∃ b c, s = NewSDKError s.StatusCode b c)) := by
  unfold doRequest at h
  split at h
  · simp at h; exact ⟨_, h.symm, Or.inl ⟨_, rfl⟩⟩
  · split at h
    · simp at h; exact ⟨_, h.symm, Or.inl ⟨_, rfl⟩⟩
    · split at h
      · simp at h; exact ⟨_, h.symm, Or.inr ⟨_, _, rfl⟩⟩
      · split at h
        · simp at h; exact ⟨_, h.symm, Or.inr ⟨_, _, rfl⟩⟩
        · split at h
          · simp at h; exact ⟨_, h.symm, Or.inr ⟨_, _, rfl⟩⟩
          · split at h
            · simp at h
            · split at h
              · simp at h; exact ⟨_, h.symm, Or.inr ⟨_, _, rfl⟩⟩
              · simp at h

theorem retryLoop_retried (rc : RestClient) (ctx : Context) (path method : String)
    (hasIn hasOut : Bool) (world : Nat → Exchange) (remaining : Nat) :
    ∀ (k attempt : Nat) (lastErr : Option GoError),
      ctx.quietDuring attempt k →
      (∀ i, i < k → ∃ e, (doRequest rc path method hasIn hasOut (world (attempt + i))).err
          = some e ∧ shouldRetry e = true) →
      retryLoop rc ctx path method hasIn hasOut world (remaining + k) attempt lastErr =
        ⟨(retryLoop rc ctx path method hasIn hasOut world remaining (attempt + k)
            (lastErrAfter rc path method hasIn hasOut world k attempt lastErr)).err,
          retriedPrefix rc path method hasIn hasOut world k attempt ++
          (retryLoop rc ctx path method hasIn hasOut world remaining (attempt + k)
            (lastErrAfter rc path method hasIn hasOut world k attempt lastErr)).trace⟩ := by
  intro k
  induction k with
  | zero =>
    intro attempt lastErr _ _
    simp [lastErrAfter, retriedPrefix]
  | succ k ih =>
    intro attempt lastErr hq hr
    obtain ⟨e, he, hre⟩ := hr 0 (Nat.succ_pos k)
    have hq0 := hq 0 (Nat.succ_pos k)
    simp only [Nat.add_zero] at he hq0
    have hq1 : ctx.quietDuring (attempt + 1) k := by
      intro i hi
      have := hq (i + 1) (Nat.succ_lt_succ hi)
      rw [show attempt + (i + 1) = attempt + 1 + i by omega] at this
      exact this
    have hr1 : ∀ i, i < k → ∃ e,
        (doRequest rc path method hasIn hasOut (world (attempt + 1 + i))).err = some e ∧
          shouldRetry e = true := by
      intro i hi
      have := hr (i + 1) (Nat.succ_lt_succ hi)
      rw [show attempt + (i + 1) = attempt + 1 + i by omega] at this
      exact this
    have hlast : lastErrAfter rc path method hasIn hasOut world k (attempt + 1) (some e) =
        lastErrAfter rc path method hasIn hasOut world (k + 1) attempt lastErr := by
      unfold lastErrAfter
      by_cases hk : k = 0
      · subst hk; simp [he]
      · simp [hk]
    have hstep : retryLoop rc ctx path method hasIn hasOut world (remaining + (k + 1)) attempt
        lastErr =
        ⟨(retryLoop rc ctx path method hasIn hasOut world (remaining + k) (attempt + 1)
            (some e)).err,
          ((if attempt > 0 then [Event.sleep attempt (backoffSleep rc attempt)] else []) ++
            [Event.attempt attempt (doRequest rc path method hasIn hasOut (world attempt)).sent])
          ++ (retryLoop rc ctx path method hasIn hasOut world (remaining + k) (attempt + 1)
            (some e)).trace⟩ := by
      show retryLoop rc ctx path method hasIn hasOut world ((remaining + k) + 1) attempt
        lastErr = _
      rw [retryLoop]
      by_cases hpos : attempt > 0
      · simp [hpos, hq0.1 hpos, he, hre, hq0.2]
      · simp [hpos, he, hre, hq0.2]
    rw [hstep, ih (attempt + 1) (some e) hq1 hr1, hlast]
    simp only [retriedPrefix, List.append_assoc]
    rw [show attempt + 1 + k = attempt + (k + 1) by omega]

/-- An SDKError of `doRequest` with a status other than 0 has the type the
classifier gives its status. -/
theorem doRequest_err_type (rc : RestClient) (path method : String) (hasIn hasOut : Bool)
    (x : Exchange) (s : SDKError)
    (h : (doRequest rc path method hasIn hasOut x).err = some (.sdk s))
    (h0 : s.StatusCode ≠ 0) : s.ErrType = getErrorTypeFromStatus s.StatusCode := by
  obtain ⟨t, ht, hshape⟩ := doRequest_err_shape rc path method hasIn hasOut x _ h
  cases ht
  rcases hshape with ⟨c, hc⟩ | ⟨b, c, hc⟩
  · rw [hc] at h0; exact absurd rfl h0
  · exact congrArg SDKError.ErrType hc

theorem shouldRetry_sdk (s : SDKError) :
    shouldRetry (.sdk s) = true ↔ s.StatusCode = 429 ∨ (500 ≤ s.StatusCode ∧ s.StatusCode < 600) := by
  simp [shouldRetry, GoError.asSDKError]

/-- The iteration `attempt` ends the loop when its attempt succeeds or fails
with an error the retry test rejects. -/
theorem retryLoop_final (rc : RestClient) (ctx : Context) (path method : String)
    (hasIn hasOut : Bool) (world : Nat → Exchange) (remaining attempt : Nat)
    (lastErr : Option GoError)
    (hb : attempt > 0 → ctx.doneInBackoff attempt = false)
    (hf : ∀ e, (doRequest rc path method hasIn hasOut (world attempt)).err = some e →
      shouldRetry e = false) :
    retryLoop rc ctx path method hasIn hasOut world (remaining + 1) attempt lastErr =
      ⟨(doRequest rc path method hasIn hasOut (world attempt)).err,
        (if attempt > 0 then [Event.sleep attempt (backoffSleep rc attempt)] else []) ++
          [Event.attempt attempt (doRequest rc path method hasIn hasOut (world attempt)).sent]⟩ := by
  rw [retryLoop]
  cases hd : (doRequest rc path method hasIn hasOut (world attempt)).err with
  | none =>
    by_cases hpos : attempt > 0
    · simp [hpos, hb hpos, hd]
    · simp [hpos, hd]
  | some e =>
    have := hf e hd
    by_cases hpos : attempt > 0
    · simp [hpos, hb hpos, hd, this]
    · simp [hpos, hd, this]

/-- The iteration `attempt > 0` ends the loop without an attempt when the
cancellation signal wins the `select` of its backoff. -/
theorem retryLoop_cancelled (rc : RestClient) (ctx : Context) (path method : String)
    (hasIn hasOut : Bool) (world : Nat → Exchange) (remaining attempt : Nat)
    (lastErr : Option GoError) (hpos : attempt > 0)
    (hb : ctx.doneInBackoff attempt = true) :
    retryLoop rc ctx path method hasIn hasOut world (remaining + 1) attempt lastErr =
      ⟨some (.sdk (NewSDKError 0 "" (.wrap "context canceled during retry" ctx.Err))),
        [Event.sleep attempt (backoffSleep rc attempt)]⟩ := by
  rw [retryLoop]
  simp [hpos, hb]

/-- An error of `doRequest` whose type is none of rate_limit and server_error
is rejected by the retry test. -/
theorem shouldRetry_of_final_type (rc : RestClient) (path method : String)
    (hasIn hasOut : Bool) (x : Exchange) (s : SDKError)
    (h : (doRequest rc path method hasIn hasOut x).err = some (.sdk s))
    (ht : s.ErrType ≠ "rate_limit" ∧ s.ErrType ≠ "server_error") :
    shouldRetry (.sdk s) = false := by
  obtain ⟨t, ht0, hshape⟩ := doRequest_err_shape rc path method hasIn hasOut x _ h
  cases ht0
  rw [Bool.eq_false_iff]
  intro hr
  rw [shouldRetry_sdk] at hr
  rcases hshape with ⟨c, hc⟩ | ⟨b, c, hc⟩
  · have h0 : s.StatusCode = 0 := by rw [hc]; rfl
    omega
  · have hty : s.ErrType = getErrorTypeFromStatus s.StatusCode := congrArg SDKError.ErrType hc
    rcases hr with h429 | h5
    · rw [h429] at hty; exact ht.1 (by rw [hty]; decide)
    · apply ht.2
      rw [hty]
      unfold getErrorTypeFromStatus
      rw [if_neg (by omega), if_pos (by omega)]
      rfl

theorem attempt_not_mem_retriedPrefix (rc : RestClient) (path method : String)
    (hasIn hasOut : Bool) (world : Nat → Exchange) (k attempt a : Nat) (s : Option http.Request)
    (ha : attempt + k ≤ a) :
    Event.attempt a s ∉ retriedPrefix rc path method hasIn hasOut world k attempt := by
  induction k generalizing attempt with
  | zero => simp [retriedPrefix]
  | succ k ih =>
    intro hmem
    simp only [retriedPrefix, List.mem_append, List.mem_singleton] at hmem
    rcases hmem with (hs | he) | hrest
    · split at hs <;> simp at hs
    · injection he with h1 _
      omega
    · exact ih (attempt + 1) (by omega) hrest

/-- The three shapes of the trace of one more iteration: cancelled in the
backoff, ended by its attempt, or continued by the rest of the loop. -/
theorem retryLoop_trace_cases (rc : RestClient) (ctx : Context) (path method : String)
    (hasIn hasOut : Bool) (world : Nat → Exchange) (remaining attempt : Nat)
    (lastErr : Option GoError) :
    (attempt > 0 ∧
      (retryLoop rc ctx path method hasIn hasOut world (remaining + 1) attempt lastErr).trace =
        [Event.sleep attempt (backoffSleep rc attempt)]) ∨
    (retryLoop rc ctx path method hasIn hasOut world (remaining + 1) attempt lastErr).trace =
      (if attempt > 0 then [Event.sleep attempt (backoffSleep rc attempt)] else []) ++
        [Event.attempt attempt (doRequest rc path method hasIn hasOut (world attempt)).sent] ∨
    ∃ e, (retryLoop rc ctx path method hasIn hasOut world (remaining + 1) attempt lastErr).trace =
      ((if attempt > 0 then [Event.sleep attempt (backoffSleep rc attempt)] else []) ++
        [Event.attempt attempt (doRequest rc path method hasIn hasOut (world attempt)).sent]) ++
      (retryLoop rc ctx path method hasIn hasOut world remaining (attempt + 1) (some e)).trace := by
  rw [retryLoop]
  by_cases hc : (decide (attempt > 0) && ctx.doneInBackoff attempt) = true
  · left
    have hpos : attempt > 0 := by
      simp only [Bool.and_eq_true, decide_eq_true_eq] at hc
      exact hc.1
    simp only [hc, if_true]
    exact ⟨hpos, by simp [hpos]⟩
  · right
    simp only [hc]
    cases hd : (doRequest rc path method hasIn hasOut (world attempt)).err with
    | none => left; simp
    | some e =>
      by_cases hr : shouldRetry e = true
      · by_cases ha : ctx.doneAfter attempt = true
        · left; simp [hr, ha]
        · right; exact ⟨e, by simp [hr, ha]⟩
      · left; simp [hr]

/-- Every timer of the loop is started for an iteration `a ≥ 1` of the loop,
with the duration of line 94. -/
theorem retryLoop_sleep_mem (rc : RestClient) (ctx : Context) (path method : String)
    (hasIn hasOut : Bool) (world : Nat → Exchange) (a : Nat) (d : Int) :
    ∀ (remaining attempt : Nat) (lastErr : Option GoError),
      Event.sleep a d ∈
        (retryLoop rc ctx path method hasIn hasOut world remaining attempt lastErr).trace →
      0 < a ∧ attempt ≤ a ∧ a < attempt + remaining ∧ d = backoffSleep rc a := by
  intro remaining
  induction remaining with
  | zero =>
    intro attempt lastErr h
    cases lastErr <;> simp [retryLoop] at h
  | succ n ih =>
    intro attempt lastErr h
    have hsl : ∀ x, x ∈ (if attempt > 0 then [Event.sleep attempt (backoffSleep rc attempt)]
        else []) → x = Event.sleep a d →
        0 < a ∧ attempt ≤ a ∧ a < attempt + (n + 1) ∧ d = backoffSleep rc a := by
      intro x hx hxa
      split at hx
      · simp only [List.mem_singleton] at hx
        rw [hx] at hxa
        injection hxa with h1 h2
        subst h1
        exact ⟨by assumption, Nat.le_refl _, by omega, h2.symm⟩
      · simp at hx
    rcases retryLoop_trace_cases rc ctx path method hasIn hasOut world n attempt lastErr with
      ⟨hpos, ht⟩ | ht | ⟨e, ht⟩
    · rw [ht] at h
      exact hsl _ (by rw [if_pos hpos]; exact h) rfl
    · rw [ht] at h
      simp only [List.mem_append, List.mem_singleton, reduceCtorEq, or_false] at h
      exact hsl _ h rfl
    · rw [ht] at h
      simp only [List.mem_append, List.mem_singleton, reduceCtorEq, or_false] at h
      rcases h with h | h
      · exact hsl _ h rfl
      · have := ih (attempt + 1) (some e) h
        omega

/-- Every attempt `a ≥ 1` of the loop comes right after the timer started for
it. -/
theorem retryLoop_attempt_after_sleep (rc : RestClient) (ctx : Context) (path method : String)
    (hasIn hasOut : Bool) (world : Nat → Exchange) (a : Nat) (s : Option http.Request)
    (ha : 0 < a) :
    ∀ (remaining attempt : Nat) (lastErr : Option GoError),
      Event.attempt a s ∈
        (retryLoop rc ctx path method hasIn hasOut world remaining attempt lastErr).trace →
      ∃ pre post,
        (retryLoop rc ctx path method hasIn hasOut world remaining attempt lastErr).trace =
          pre ++ Event.sleep a (backoffSleep rc a) :: Event.attempt a s :: post := by
  intro remaining
  induction remaining with
  | zero =>
    intro attempt lastErr h
    cases lastErr <;> simp [retryLoop] at h
  | succ n ih =>
    intro attempt lastErr h
    have hhere : Event.attempt a s ∈
        (if attempt > 0 then [Event.sleep attempt (backoffSleep rc attempt)] else []) ++
          [Event.attempt attempt (doRequest rc path method hasIn hasOut (world attempt)).sent] →
        (if attempt > 0 then [Event.sleep attempt (backoffSleep rc attempt)] else []) ++
          [Event.attempt attempt (doRequest rc path method hasIn hasOut (world attempt)).sent] =
        [Event.sleep a (backoffSleep rc a), Event.attempt a s] := by
      intro hm
      simp only [List.mem_append, List.mem_singleton] at hm
      rcases hm with hm | hm
      · split at hm <;> simp at hm
      · injection hm with h1 h2
        subst h1
        subst h2
        simp [ha]
    rcases retryLoop_trace_cases rc ctx path method hasIn hasOut world n attempt lastErr with
      ⟨hpos, ht⟩ | ht | ⟨e, ht⟩
    · rw [ht] at h
      simp at h
    · rw [ht] at h
      exact ⟨[], [], by rw [ht, hhere h]; rfl⟩
    · rw [ht] at h
      rw [List.mem_append] at h
      rcases h with h | h
      · exact ⟨[], _, by rw [ht, hhere h]; rfl⟩
      · obtain ⟨pre, post, hpp⟩ := ih (attempt + 1) (some e) h
        exact ⟨((if attempt > 0 then [Event.sleep attempt (backoffSleep rc attempt)] else []) ++
          [Event.attempt attempt (doRequest rc path method hasIn hasOut (world attempt)).sent])
          ++ pre, post, by rw [ht, hpp]; simp only [List.append_assoc]⟩

/-- Signed 64-bit wrap-around leaves a representable value as it is. -/
theorem wrapInt64_of_range (x : Int) (h0 : -(2 ^ 63) ≤ x) (h1 : x < 2 ^ 63) :
    wrapInt64 x = x := by
  unfold wrapInt64
  rw [Int.emod_eq_of_lt (by omega) (by omega)]
  omega

theorem wrapInt64_congr (x y : Int) (h : x % 2 ^ 64 = y % 2 ^ 64) :
    wrapInt64 x = wrapInt64 y := by
  unfold wrapInt64
  have : (x + 2 ^ 63) % 2 ^ 64 = (y + 2 ^ 63) % 2 ^ 64 := by
    rw [Int.add_emod, h, ← Int.add_emod]
  rw [this]

theorem shiftLeftOne_emod (s : Nat) : shiftLeftOne s % 2 ^ 64 = 2 ^ s % 2 ^ 64 := by
  unfold shiftLeftOne
  by_cases h1 : s < 63
  · rw [if_pos h1]
  · rw [if_neg h1]
    by_cases h2 : s = 63
    · rw [if_pos h2, h2]
      decide
    · rw [if_neg h2]
      have hd : (2 : Int) ^ 64 ∣ 2 ^ s := pow_dvd_pow 2 (by omega)
      rw [Int.emod_eq_zero_of_dvd hd]
      rfl

/-- The duration of line 94 is the exact product `backoff * 2^(attempt-1)`
wrapped to 64 bits. -/
theorem backoffSleep_eq_wrap (rc : RestClient) (a : Nat) :
    backoffSleep rc a = wrapInt64 (rc.backoff * 2 ^ (a - 1)) := by
  unfold backoffSleep
  apply wrapInt64_congr
  rw [Int.mul_emod, shiftLeftOne_emod, ← Int.mul_emod]

/-- The duration of line 94 is the exact product whenever the exact product
is a `time.Duration`. -/
theorem backoffSleep_exact (rc : RestClient) (a : Nat) (hb : 0 < rc.backoff)
    (hfit : rc.backoff * 2 ^ (a - 1) < 2 ^ 63) :
    backoffSleep rc a = rc.backoff * 2 ^ (a - 1) := by
  have hlt : a - 1 < 63 := by
    by_contra hge
    have hp : (2 : Int) ^ 63 ≤ 2 ^ (a - 1) :=
      pow_le_pow_right₀ (by norm_num) (by omega)
    have hpos : (0 : Int) < 2 ^ (a - 1) := by positivity
    nlinarith
  unfold backoffSleep shiftLeftOne
  rw [if_pos hlt]
  apply wrapInt64_of_range
  · have hpos : (0 : Int) < 2 ^ (a - 1) := by positivity
    nlinarith
  · exact hfit

/-- An iteration whose backoff is not cancelled makes its attempt. -/
theorem retryLoop_attempts_pos (rc : RestClient) (ctx : Context) (path method : String)
    (hasIn hasOut : Bool) (world : Nat → Exchange) (remaining attempt : Nat)
    (lastErr : Option GoError) (hb : attempt > 0 → ctx.doneInBackoff attempt = false) :
    1 ≤ attemptCount
      (retryLoop rc ctx path method hasIn hasOut world (remaining + 1) attempt lastErr).trace := by
  have hc : (decide (attempt > 0) && ctx.doneInBackoff attempt) = false := by
    by_cases hpos : attempt > 0
    · simp [hb hpos]
    · simp [hpos]
  have hhere : ∀ rest : List Event, 1 ≤ attemptCount
      (((if attempt > 0 then [Event.sleep attempt (backoffSleep rc attempt)] else []) ++
        [Event.attempt attempt (doRequest rc path method hasIn hasOut (world attempt)).sent]) ++
        rest) := by
    intro rest
    simp only [attemptCount_append, attemptCount]
    omega
  rw [retryLoop]
  simp only [hc]
  cases hd : (doRequest rc path method hasIn hasOut (world attempt)).err with
  | none => simpa using hhere []
  | some e =>
    by_cases hr : shouldRetry e = true
    · by_cases ha : ctx.doneAfter attempt = true
      · simpa [hr, ha] using hhere []
      · simpa [hr, ha] using hhere _
    · simpa [hr] using hhere []

/-! ## Lemmas on the header set -/


theorem lookup_filter_ne (name c : String) (h : http.Header) (hne : name ≠ c) :
    List.lookup name (h.filter (fun p => p.1 != c)) = List.lookup name h := by
  induction h with
  | nil => rfl
  | cons p t ih =>
    obtain ⟨k, v⟩ := p
    by_cases hk : k = c
    · subst hk
      have h1 : (name == k) = false := by simpa using hne
      simp [List.filter, List.lookup, h1, ih]
    · have h2 : (k != c) = true := by simpa using hk
      simp only [List.filter, h2, List.lookup, ih]

theorem lookup_Set (h : http.Header) (key value name : String) :
    (h.Set key value).lookup name =
      if http.CanonicalMIMEHeaderKey key = name then some value else h.lookup name := by
  unfold http.Header.Set http.Header.lookup
  by_cases hk : http.CanonicalMIMEHeaderKey key = name
  · simp [List.lookup, hk]
  · have h1 : (name == http.CanonicalMIMEHeaderKey key) = false := by
      simpa using fun h => hk h.symm
    simp only [List.lookup, h1, if_neg hk]
    exact lookup_filter_ne name _ h (fun h => hk h.symm)

theorem lookup_foldl_Set (name : String) (hs : List (String × String)) :
    ∀ h0 : http.Header,
      (hs.foldl (fun h kv => http.Header.Set h kv.1 kv.2) h0).lookup name =
        match overriding name hs with
        | some v => some v
        | none => h0.lookup name := by
  induction hs with
  | nil => intro h0; rfl
  | cons kv rest ih =>
    intro h0
    simp only [List.foldl, ih, overriding]
    cases overriding name rest with
    | some v => rfl
    | none =>
      simp only [lookup_Set]
      split <;> rfl

theorem overriding_eq_none (name : String) (hs : List (String × String)) :
    overriding name hs = none ↔ ∀ kv ∈ hs, http.CanonicalMIMEHeaderKey kv.1 ≠ name := by
  induction hs with
  | nil => simp [overriding]
  | cons kv rest ih =>
    simp only [overriding, List.mem_cons, forall_eq_or_imp]
    cases ho : overriding name rest with
    | some v =>
      rw [ho] at ih
      simp only [reduceCtorEq, false_iff] at ih ⊢
      exact fun h => ih h.2
    | none =>
      rw [ho] at ih
      by_cases hk : http.CanonicalMIMEHeaderKey kv.1 = name
      · simp [hk]
      · simp only [if_neg hk, true_iff]
        exact ⟨hk, ih.1 rfl⟩

theorem overriding_eq_some (name v : String) (hs : List (String × String))
    (h : overriding name hs = some v) :
    ∃ kv ∈ hs, http.CanonicalMIMEHeaderKey kv.1 = name ∧ kv.2 = v := by
  induction hs with
  | nil => simp [overriding] at h
  | cons kv rest ih =>
    simp only [overriding] at h
    cases ho : overriding name rest with
    | some w =>
      rw [ho] at h ih
      obtain ⟨kv2, hm, hk⟩ := ih h
      exact ⟨kv2, List.mem_cons_of_mem _ hm, hk⟩
    | none =>
      rw [ho] at h
      by_cases hk : http.CanonicalMIMEHeaderKey kv.1 = name
      · rw [if_pos hk] at h
        exact ⟨kv, List.mem_cons_self _ _, hk, Option.some.inj h⟩
      · rw [if_neg hk] at h
        cases h

/-- The request `doRequest` hands to the HTTP client is the one of
`buildRequest`. -/
theorem doRequest_sent (rc : RestClient) (path method : String) (hasIn hasOut : Bool)
    (x : Exchange) (req : http.Request)
    (h : (doRequest rc path method hasIn hasOut x).sent = some req) :
    ∃ body, req = buildRequest rc path method body := by
  unfold doRequest at h
  split at h
  · simp at h
  · split at h
    · simp at h
    · split at h
      · simp at h; exact ⟨_, h.symm⟩
      · split at h
        · simp at h; exact ⟨_, h.symm⟩
        · split at h
          · simp at h; exact ⟨_, h.symm⟩
          · split at h
            · simp at h; exact ⟨_, h.symm⟩
            · split at h
              · simp at h; exact ⟨_, h.symm⟩
              · simp at h; exact ⟨_, h.symm⟩

/-- A header of `buildRequest`: the last overriding custom value if there is
one, the default otherwise. -/
theorem buildRequest_lookup (rc : RestClient) (path method : String) (body : Option String)
    (name : String) :
    (buildRequest rc path method body).Header.lookup name =
      match overriding name rc.headers with
      | some v => some v
      | none =>
        if name = "Authorization" then some ("Bearer " ++ rc.apiKey)
        else if name = "Content-Type" then some "application/json" else none := by
  have hA : http.CanonicalMIMEHeaderKey config.HeaderKeys.Authorization = "Authorization" := by
    decide
  have hC : http.CanonicalMIMEHeaderKey config.HeaderKeys.ContentType = "Content-Type" := by
    decide
  simp only [buildRequest, lookup_foldl_Set, lookup_Set, hA, hC]
  cases overriding name rc.headers with
  | some v => rfl
  | none =>
    simp only [config.HeaderValues.AuthFormat, config.HeaderValues.JSONContentType]
    by_cases h1 : name = "Authorization"
    · simp [h1]
    · by_cases h2 : name = "Content-Type"
      · simp [h2, http.Header.lookup]
      · have h1' : ¬ "Authorization" = name := fun h => h1 h.symm
        have h2' : ¬ "Content-Type" = name := fun h => h2 h.symm
        simp [h1, h2, h1', h2', http.Header.lookup]

/-! ## Lemmas on the options -/

theorem defaults_valid :
    0 < config.Defaults.Timeout ∧ 0 < config.Defaults.Backoff ∧ 0 ≤ config.Defaults.MaxRetries := by
  decide

theorem rejected_is_identity (o : sdk.OptionCall) (h : o.rejected = true) :
    (∀ cc, o.toClientOption cc = cc) ∧ (∀ rc, o.toRestClientOption rc = rc) := by
  cases o with
  | timeout d =>
    have hd : ¬ d > 0 := by simpa [sdk.OptionCall.rejected] using h
    exact ⟨fun cc => by simp [sdk.OptionCall.toClientOption, sdk.WithTimeout, hd],
      fun rc => by simp [sdk.OptionCall.toRestClientOption, WithTimeout, hd]⟩
  | maxRetries n =>
    have hn : ¬ n ≥ 0 := by simpa [sdk.OptionCall.rejected] using h
    exact ⟨fun cc => by simp [sdk.OptionCall.toClientOption, sdk.WithMaxRetries, hn],
      fun rc => by simp [sdk.OptionCall.toRestClientOption, WithMaxRetries, hn]⟩
  | backoff d =>
    have hd : ¬ d > 0 := by simpa [sdk.OptionCall.rejected] using h
    exact ⟨fun cc => by simp [sdk.OptionCall.toClientOption, sdk.WithBackoff, hd],
      fun rc => by simp [sdk.OptionCall.toRestClientOption, WithBackoff, hd]⟩
  | header k v => simp [sdk.OptionCall.rejected] at h

theorem ClientCreator_options_valid (calls : List sdk.OptionCall) :
    ∀ cc0 : sdk.ClientCreator, (0 < cc0.timeout ∧ 0 < cc0.backoff ∧ 0 ≤ cc0.maxRetries) →
      0 < ((calls.map sdk.OptionCall.toClientOption).foldl
        (fun cc option => option cc) cc0).timeout ∧
      0 < ((calls.map sdk.OptionCall.toClientOption).foldl
        (fun cc option => option cc) cc0).backoff ∧
      0 ≤ ((calls.map sdk.OptionCall.toClientOption).foldl
        (fun cc option => option cc) cc0).maxRetries := by
  induction calls with
  | nil => intro cc0 h; exact h
  | cons o rest ih =>
    intro cc0 h
    simp only [List.map_cons, List.foldl_cons]
    apply ih
    cases o with
    | timeout d =>
      simp only [sdk.OptionCall.toClientOption, sdk.WithTimeout]
      split
      · exact ⟨by assumption, h.2⟩
      · exact h
    | maxRetries n =>
      simp only [sdk.OptionCall.toClientOption, sdk.WithMaxRetries]
      split
      · exact ⟨h.1, h.2.1, by assumption⟩
      · exact h
    | backoff d =>
      simp only [sdk.OptionCall.toClientOption, sdk.WithBackoff]
      split
      · exact ⟨h.1, by assumption, h.2.2⟩
      · exact h
    | header k v => exact h

theorem RestClient_options_valid (calls : List sdk.OptionCall) :
    ∀ rc0 : RestClient, (0 < rc0.httpClient.Timeout ∧ 0 < rc0.backoff ∧ 0 ≤ rc0.maxRetries) →
      0 < ((calls.map sdk.OptionCall.toRestClientOption).foldl
        (fun client option => option client) rc0).httpClient.Timeout ∧
      0 < ((calls.map sdk.OptionCall.toRestClientOption).foldl
        (fun client option => option client) rc0).backoff ∧
      0 ≤ ((calls.map sdk.OptionCall.toRestClientOption).foldl
        (fun client option => option client) rc0).maxRetries := by
  induction calls with
  | nil => intro rc0 h; exact h
  | cons o rest ih =>
    intro rc0 h
    simp only [List.map_cons, List.foldl_cons]
    apply ih
    cases o with
    | timeout d =>
      simp only [sdk.OptionCall.toRestClientOption, WithTimeout]
      split
      · exact ⟨by assumption, h.2⟩
      · exact h
    | maxRetries n =>
      simp only [sdk.OptionCall.toRestClientOption, WithMaxRetries]
      split
      · exact ⟨h.1, h.2.1, by assumption⟩
      · exact h
    | backoff d =>
      simp only [sdk.OptionCall.toRestClientOption, WithBackoff]
      split
      · exact ⟨h.1, by assumption, h.2.2⟩
      · exact h
    | header k v => exact h

/-- A field keeps its value through a list with no accepted option for it
(ClientCreator). -/
theorem ClientCreator_options_keep (calls : List sdk.OptionCall) :
    ∀ cc0 : sdk.ClientCreator,
      ((∀ d, sdk.OptionCall.timeout d ∈ calls → d ≤ 0) →
        ((calls.map sdk.OptionCall.toClientOption).foldl
          (fun cc option => option cc) cc0).timeout = cc0.timeout) ∧
      ((∀ d, sdk.OptionCall.backoff d ∈ calls → d ≤ 0) →
        ((calls.map sdk.OptionCall.toClientOption).foldl
          (fun cc option => option cc) cc0).backoff = cc0.backoff) ∧
      ((∀ n, sdk.OptionCall.maxRetries n ∈ calls → n < 0) →
        ((calls.map sdk.OptionCall.toClientOption).foldl
          (fun cc option => option cc) cc0).maxRetries = cc0.maxRetries) := by
  induction calls with
  | nil => intro cc0; exact ⟨fun _ => rfl, fun _ => rfl, fun _ => rfl⟩
  | cons o rest ih =>
    intro cc0
    simp only [List.map_cons, List.foldl_cons]
    refine ⟨fun h => ?_, fun h => ?_, fun h => ?_⟩
    · rw [(ih _).1 (fun d hd => h d (List.mem_cons_of_mem _ hd))]
      cases o with
      | timeout d =>
        have hd : ¬ d > 0 := not_lt.2 (h d (List.mem_cons_self _ _))
        simp [sdk.OptionCall.toClientOption, sdk.WithTimeout, hd]
      | maxRetries n => simp only [sdk.OptionCall.toClientOption, sdk.WithMaxRetries]; split <;> rfl
      | backoff d => simp only [sdk.OptionCall.toClientOption, sdk.WithBackoff]; split <;> rfl
      | header k v => rfl
    · rw [(ih _).2.1 (fun d hd => h d (List.mem_cons_of_mem _ hd))]
      cases o with
      | timeout d => simp only [sdk.OptionCall.toClientOption, sdk.WithTimeout]; split <;> rfl
      | maxRetries n => simp only [sdk.OptionCall.toClientOption, sdk.WithMaxRetries]; split <;> rfl
      | backoff d =>
        have hd : ¬ d > 0 := not_lt.2 (h d (List.mem_cons_self _ _))
        simp [sdk.OptionCall.toClientOption, sdk.WithBackoff, hd]
      | header k v => rfl
    · rw [(ih _).2.2 (fun n hn => h n (List.mem_cons_of_mem _ hn))]
      cases o with
      | timeout d => simp only [sdk.OptionCall.toClientOption, sdk.WithTimeout]; split <;> rfl
      | maxRetries n =>
        have hn : ¬ n ≥ 0 := not_le.2 (h n (List.mem_cons_self _ _))
        simp [sdk.OptionCall.toClientOption, sdk.WithMaxRetries, hn]
      | backoff d => simp only [sdk.OptionCall.toClientOption, sdk.WithBackoff]; split <;> rfl
      | header k v => rfl

/-- A field keeps its value through a list with no accepted option for it
(RestClient). -/
theorem RestClient_options_keep (calls : List sdk.OptionCall) :
    ∀ rc0 : RestClient,
      ((∀ d, sdk.OptionCall.timeout d ∈ calls → d ≤ 0) →
        ((calls.map sdk.OptionCall.toRestClientOption).foldl
          (fun client option => option client) rc0).httpClient.Timeout
            = rc0.httpClient.Timeout) ∧
      ((∀ d, sdk.OptionCall.backoff d ∈ calls → d ≤ 0) →
        ((calls.map sdk.OptionCall.toRestClientOption).foldl
          (fun client option => option client) rc0).backoff = rc0.backoff) ∧
      ((∀ n, sdk.OptionCall.maxRetries n ∈ calls → n < 0) →
        ((calls.map sdk.OptionCall.toRestClientOption).foldl
          (fun client option => option client) rc0).maxRetries = rc0.maxRetries) := by
  induction calls with
  | nil => intro rc0; exact ⟨fun _ => rfl, fun _ => rfl, fun _ => rfl⟩
  | cons o rest ih =>
    intro rc0
    simp only [List.map_cons, List.foldl_cons]
    refine ⟨fun h => ?_, fun h => ?_, fun h => ?_⟩
    · rw [(ih _).1 (fun d hd => h d (List.mem_cons_of_mem _ hd))]
      cases o with
      | timeout d =>
        have hd : ¬ d > 0 := not_lt.2 (h d (List.mem_cons_self _ _))
        simp [sdk.OptionCall.toRestClientOption, WithTimeout, hd]
      | maxRetries n => simp only [sdk.OptionCall.toRestClientOption, WithMaxRetries]; split <;> rfl
      | backoff d => simp only [sdk.OptionCall.toRestClientOption, WithBackoff]; split <;> rfl
      | header k v => rfl
    · rw [(ih _).2.1 (fun d hd => h d (List.mem_cons_of_mem _ hd))]
      cases o with
      | timeout d => simp only [sdk.OptionCall.toRestClientOption, WithTimeout]; split <;> rfl
      | maxRetries n => simp only [sdk.OptionCall.toRestClientOption, WithMaxRetries]; split <;> rfl
      | backoff d =>
        have hd : ¬ d > 0 := not_lt.2 (h d (List.mem_cons_self _ _))
        simp [sdk.OptionCall.toRestClientOption, WithBackoff, hd]
      | header k v => rfl
    · rw [(ih _).2.2 (fun n hn => h n (List.mem_cons_of_mem _ hn))]
      cases o with
      | timeout d => simp only [sdk.OptionCall.toRestClientOption, WithTimeout]; split <;> rfl
      | maxRetries n =>
        have hn : ¬ n ≥ 0 := not_le.2 (h n (List.mem_cons_self _ _))
        simp [sdk.OptionCall.toRestClientOption, WithMaxRetries, hn]
      | backoff d => simp only [sdk.OptionCall.toRestClientOption, WithBackoff]; split <;> rfl
      | header k v => rfl

/-! ## C1 -/

/-- C1: getErrorTypeFromStatus is total and equals the table of the
specification at every integer status code: 401, 403, 404 and 429 have their
own kinds, every other code in [400,500) is bad_request, every code from 500
on is server_error and every code below 400 is network_error. -/
theorem getErrorTypeFromStatus_table (c : Int) :
    getErrorTypeFromStatus c =
      if c = 401 then "unauthorized"
      else if c = 403 then "forbidden"
      else if c = 404 then "not_found"
      else if c = 429 then "rate_limit"
      else if 400 ≤ c ∧ c < 500 then "bad_request"
      else if 500 ≤ c then "server_error"
      else "network_error" := by
  unfold getErrorTypeFromStatus StatusBadRequest StatusUnauthorized StatusForbidden
    StatusNotFound StatusTooManyRequests
  split_ifs <;> first | rfl | omega

/-! ## C2 -/

/-- C2: with maxRetries = N, a context that is never seen cancelled and every
attempt failing with status 503, Request makes exactly N+1 attempts and
returns the retries-exhausted error, which is not an SDKError itself and
wraps the SDKError of attempt N, of status 503 and type server_error. -/
theorem Request_always_503 (rc : RestClient) (N : Nat) (ctx : Context) (path method : String)
    (hasIn hasOut : Bool) (world : Nat → Exchange)
    (hN : rc.maxRetries = (N : Int))
    (hctx : ∀ k, ctx.doneInBackoff k = false ∧ ctx.doneAfter k = false)
    (h503 : ∀ k, ∃ e : SDKError,
      (doRequest rc path method hasIn hasOut (world k)).err = some (.sdk e) ∧
        e.StatusCode = 503) :
    attemptCount (rc.Request (some ctx) path method hasIn hasOut world).trace = N + 1 ∧
    ∃ last : SDKError,
      (doRequest rc path method hasIn hasOut (world N)).err = some (.sdk last) ∧
      (rc.Request (some ctx) path method hasIn hasOut world).err =
        some (.wrap ("failed after " ++ toString (N : Int) ++ " retries") (.sdk last)) ∧
      ((rc.Request (some ctx) path method hasIn hasOut world).err.bind
        GoError.asSDKError) = none ∧
      last.StatusCode = 503 ∧ last.ErrType = "server_error" := by
  have hq : ctx.quietDuring 0 (N + 1) := fun i _ => ⟨fun _ => (hctx _).1, (hctx _).2⟩
  have hr : ∀ i, i < N + 1 → ∃ e,
      (doRequest rc path method hasIn hasOut (world (0 + i))).err = some e ∧
        shouldRetry e = true := by
    intro i _
    obtain ⟨e, he, hs⟩ := h503 (0 + i)
    exact ⟨_, he, (shouldRetry_sdk e).2 (Or.inr (by omega))⟩
  have hrun := retryLoop_retried rc ctx path method hasIn hasOut world 0 (N + 1) 0 none hq hr
  obtain ⟨last, hlast, hs⟩ := h503 N
  have hty := doRequest_err_type rc path method hasIn hasOut (world N) last hlast (by omega)
  have hla : lastErrAfter rc path method hasIn hasOut world (N + 1) 0 none = some (.sdk last) := by
    simp [lastErrAfter, hlast]
  have hreq : rc.Request (some ctx) path method hasIn hasOut world =
      retryLoop rc ctx path method hasIn hasOut world (0 + (N + 1)) 0 none := by
    simp [RestClient.Request, hN]
  rw [hreq, hrun, hla]
  refine ⟨?_, last, hlast, ?_, ?_, hs, ?_⟩
  · simp [attemptCount_append, attemptCount_retriedPrefix, retryLoop, attemptCount]
  · simp [retryLoop, hN]
  · simp [retryLoop, GoError.asSDKError]
  · rw [hty, hs]; decide

/-- Witness of C2: the default client (maxRetries 3) against a server that
always answers 503. -/
theorem Request_always_503_witness :
    attemptCount ((NewRestClient "https://api.eu2.coralogix.com/mgmt/openapi" "key" []).Request
      (some quietContext) "/v3/alert-defs" "POST" true true
      (fun _ => respond 503 "busy")).trace = 3 + 1 ∧
    ∃ last : SDKError,
      (doRequest (NewRestClient "https://api.eu2.coralogix.com/mgmt/openapi" "key" [])
        "/v3/alert-defs" "POST" true true (respond 503 "busy")).err = some (.sdk last) ∧
      ((NewRestClient "https://api.eu2.coralogix.com/mgmt/openapi" "key" []).Request
        (some quietContext) "/v3/alert-defs" "POST" true true
        (fun _ => respond 503 "busy")).err =
        some (.wrap ("failed after " ++ toString ((3 : Nat) : Int) ++ " retries") (.sdk last)) ∧
      (((NewRestClient "https://api.eu2.coralogix.com/mgmt/openapi" "key" []).Request
        (some quietContext) "/v3/alert-defs" "POST" true true
        (fun _ => respond 503 "busy")).err.bind GoError.asSDKError) = none ∧
      last.StatusCode = 503 ∧ last.ErrType = "server_error" :=
  Request_always_503 (NewRestClient "https://api.eu2.coralogix.com/mgmt/openapi" "key" []) 3
    quietContext "/v3/alert-defs" "POST" true true (fun _ => respond 503 "busy") rfl
    (fun _ => ⟨rfl, rfl⟩) (fun _ => ⟨_, rfl, rfl⟩)

/-! ## C3 -/

/-- C3: with maxRetries = N and a context never seen cancelled, if attempts
0..k-1 (k ≤ N) fail with status 429 or 5xx and attempt k succeeds or fails
with an error of type bad_request, unauthorized, forbidden, not_found,
network_error or invalid_input, then Request makes exactly k+1 attempts and
returns the outcome of attempt k unchanged; in particular, with N ≥ 1 and a
404 on the first attempt, one attempt is made and the returned SDKError has
type not_found. -/
theorem Request_stops_at_first_final (rc : RestClient) (N : Nat) (ctx : Context)
    (path method : String) (hasIn hasOut : Bool) (world : Nat → Exchange)
    (hN : rc.maxRetries = (N : Int))
    (hctx : ∀ i, ctx.doneInBackoff i = false ∧ ctx.doneAfter i = false) :
    (∀ k, k ≤ N →
      (∀ i, i < k → ∃ e : SDKError,
        (doRequest rc path method hasIn hasOut (world i)).err = some (.sdk e) ∧
          (e.StatusCode = 429 ∨ (500 ≤ e.StatusCode ∧ e.StatusCode < 600))) →
      ((doRequest rc path method hasIn hasOut (world k)).err = none ∨
        ∃ e : SDKError, (doRequest rc path method hasIn hasOut (world k)).err = some (.sdk e) ∧
          e.ErrType ∈ ["bad_request", "unauthorized", "forbidden", "not_found",
            "network_error", "invalid_input"]) →
      attemptCount (rc.Request (some ctx) path method hasIn hasOut world).trace = k + 1 ∧
      (rc.Request (some ctx) path method hasIn hasOut world).err =
        (doRequest rc path method hasIn hasOut (world k)).err) ∧
    (1 ≤ N → ∀ e : SDKError,
      (doRequest rc path method hasIn hasOut (world 0)).err = some (.sdk e) →
      e.StatusCode = 404 →
      attemptCount (rc.Request (some ctx) path method hasIn hasOut world).trace = 1 ∧
      (rc.Request (some ctx) path method hasIn hasOut world).err = some (.sdk e) ∧
      e.ErrType = "not_found") := by
  have main : ∀ k, k ≤ N →
      (∀ i, i < k → ∃ e : SDKError,
        (doRequest rc path method hasIn hasOut (world i)).err = some (.sdk e) ∧
          (e.StatusCode = 429 ∨ (500 ≤ e.StatusCode ∧ e.StatusCode < 600))) →
      (∀ e, (doRequest rc path method hasIn hasOut (world k)).err = some e →
        shouldRetry e = false) →
      attemptCount (rc.Request (some ctx) path method hasIn hasOut world).trace = k + 1 ∧
      (rc.Request (some ctx) path method hasIn hasOut world).err =
        (doRequest rc path method hasIn hasOut (world k)).err := by
    intro k hk hretry hfinal
    have hq : ctx.quietDuring 0 k := fun i _ => ⟨fun _ => (hctx _).1, (hctx _).2⟩
    have hr : ∀ i, i < k → ∃ e,
        (doRequest rc path method hasIn hasOut (world (0 + i))).err = some e ∧
          shouldRetry e = true := by
      intro i hi
      obtain ⟨e, he, hs⟩ := hretry i hi
      exact ⟨_, by rw [Nat.zero_add]; exact he, (shouldRetry_sdk e).2 hs⟩
    have hrun := retryLoop_retried rc ctx path method hasIn hasOut world (N - k + 1) k 0
      none hq hr
    have hreq : rc.Request (some ctx) path method hasIn hasOut world =
        retryLoop rc ctx path method hasIn hasOut world (N - k + 1 + k) 0 none := by
      simp only [RestClient.Request, hN]
      congr 1
      omega
    rw [hreq, hrun]
    rw [retryLoop_final rc ctx path method hasIn hasOut world (N - k) (0 + k) _
      (fun _ => (hctx _).1) (by rw [Nat.zero_add]; exact hfinal)]
    simp only [Nat.zero_add, attemptCount_append, attemptCount_retriedPrefix]
    refine ⟨?_, trivial⟩
    split <;> simp [attemptCount]
  refine ⟨?_, ?_⟩
  · intro k hk hretry hfinal
    apply main k hk hretry
    intro e he
    rcases hfinal with hnone | ⟨s, hs, hty⟩
    · rw [hnone] at he; cases he
    · rw [hs] at he
      cases he
      apply shouldRetry_of_final_type rc path method hasIn hasOut (world k) s hs
      simp only [List.mem_cons, List.mem_singleton, List.not_mem_nil, or_false] at hty
      rcases hty with h | h | h | h | h | h <;> rw [h] <;> decide
  · intro _ e he h404
    have hty : e.ErrType = "not_found" := by
      rw [doRequest_err_type rc path method hasIn hasOut (world 0) e he (by omega), h404]
      decide
    have := main 0 (Nat.zero_le N) (fun i hi => absurd hi (Nat.not_lt_zero i)) (by
      intro e2 he2
      rw [he] at he2
      cases he2
      apply shouldRetry_of_final_type rc path method hasIn hasOut (world 0) e he
      rw [hty]; decide)
    exact ⟨this.1, by rw [this.2, he], hty⟩

/-- Witness of C3: maxRetries 3, a 503 on the first attempt and a 404 on the
second: two attempts, and the 404 error comes back as it is. -/
theorem Request_stops_at_first_final_witness :
    attemptCount ((NewRestClient "https://api.eu2.coralogix.com/mgmt/openapi" "key" []).Request
      (some quietContext) "/v1/outgoing-webhooks/7" "GET" false true
      (fun i => if i = 0 then respond 503 "busy" else respond 404 "gone")).trace = 1 + 1 ∧
    ((NewRestClient "https://api.eu2.coralogix.com/mgmt/openapi" "key" []).Request
      (some quietContext) "/v1/outgoing-webhooks/7" "GET" false true
      (fun i => if i = 0 then respond 503 "busy" else respond 404 "gone")).err =
      (doRequest (NewRestClient "https://api.eu2.coralogix.com/mgmt/openapi" "key" [])
        "/v1/outgoing-webhooks/7" "GET" false true (respond 404 "gone")).err :=
  (Request_stops_at_first_final
    (NewRestClient "https://api.eu2.coralogix.com/mgmt/openapi" "key" []) 3 quietContext
    "/v1/outgoing-webhooks/7" "GET" false true
    (fun i => if i = 0 then respond 503 "busy" else respond 404 "gone") rfl
    (fun _ => ⟨rfl, rfl⟩)).1 1 (by decide)
    (fun i hi => by
      have : i = 0 := by omega
      subst this
      exact ⟨_, rfl, Or.inr (by decide)⟩)
    (Or.inr ⟨_, rfl, by decide⟩)

/-! ## C4 -/

/-- C4: what Request does when the cancellation signal wins the backoff
before retry attempt k (1 ≤ k ≤ maxRetries, the attempts before it having
failed with retried errors and no cancellation seen): attempt k is not made,
exactly k attempts were made, and the returned SDKError wraps the context
error with status 0 and, through NewSDKError, type network_error, not
context_canceled. -/
theorem Request_cancelled_in_backoff (rc : RestClient) (N k : Nat) (ctx : Context)
    (path method : String) (hasIn hasOut : Bool) (world : Nat → Exchange)
    (hN : rc.maxRetries = (N : Int)) (hk1 : 1 ≤ k) (hkN : k ≤ N)
    (hquiet : ctx.quietDuring 0 k)
    (hretry : ∀ i, i < k → ∃ e,
      (doRequest rc path method hasIn hasOut (world i)).err = some e ∧ shouldRetry e = true)
    (hcancel : ctx.doneInBackoff k = true) :
    attemptCount (rc.Request (some ctx) path method hasIn hasOut world).trace = k ∧
    (∀ s, Event.attempt k s ∉ (rc.Request (some ctx) path method hasIn hasOut world).trace) ∧
    ∃ e : SDKError,
      (rc.Request (some ctx) path method hasIn hasOut world).err = some (.sdk e) ∧
      e = NewSDKError 0 "" (.wrap "context canceled during retry" ctx.Err) ∧
      e.StatusCode = 0 ∧ e.ErrType = "network_error" ∧ e.ErrType ≠ ErrContextCanceled := by
  have hr : ∀ i, i < k → ∃ e,
      (doRequest rc path method hasIn hasOut (world (0 + i))).err = some e ∧
        shouldRetry e = true := by
    intro i hi
    rw [Nat.zero_add]
    exact hretry i hi
  have hrun := retryLoop_retried rc ctx path method hasIn hasOut world (N - k + 1) k 0
    none hquiet hr
  have hreq : rc.Request (some ctx) path method hasIn hasOut world =
      retryLoop rc ctx path method hasIn hasOut world (N - k + 1 + k) 0 none := by
    simp only [RestClient.Request, hN]
    congr 1
    omega
  rw [hreq, hrun]
  rw [retryLoop_cancelled rc ctx path method hasIn hasOut world (N - k) (0 + k) _
    (by omega) (by rw [Nat.zero_add]; exact hcancel)]
  refine ⟨?_, ?_, _, rfl, rfl, rfl, ?_, ?_⟩
  · simp [attemptCount_append, attemptCount_retriedPrefix, attemptCount]
  · intro s hmem
    simp only [List.mem_append, List.mem_singleton, reduceCtorEq, or_false] at hmem
    exact absurd hmem (attempt_not_mem_retriedPrefix rc path method hasIn hasOut world k 0 k s
      (by omega))
  · show getErrorTypeFromStatus 0 = "network_error"
    decide
  · show getErrorTypeFromStatus 0 ≠ ErrContextCanceled
    decide

/-- The failing input of C4: default client, a 503 on the first attempt, and
the context cancelled during the backoff before attempt 1.  One attempt is
made and the error has type network_error. -/
theorem Request_cancelled_in_backoff_witness :
    attemptCount ((NewRestClient "https://api.eu2.coralogix.com/mgmt/openapi" "key" []).Request
      (some { doneInBackoff := fun _ => true, doneAfter := fun _ => false,
              Err := .new "context canceled" })
      "/v3/alert-defs" "POST" true true (fun _ => respond 503 "busy")).trace = 1 ∧
    (∀ s, Event.attempt 1 s ∉
      ((NewRestClient "https://api.eu2.coralogix.com/mgmt/openapi" "key" []).Request
        (some { doneInBackoff := fun _ => true, doneAfter := fun _ => false,
                Err := .new "context canceled" })
        "/v3/alert-defs" "POST" true true (fun _ => respond 503 "busy")).trace) ∧
    ∃ e : SDKError,
      ((NewRestClient "https://api.eu2.coralogix.com/mgmt/openapi" "key" []).Request
        (some { doneInBackoff := fun _ => true, doneAfter := fun _ => false,
                Err := .new "context canceled" })
        "/v3/alert-defs" "POST" true true (fun _ => respond 503 "busy")).err = some (.sdk e) ∧
      e = NewSDKError 0 "" (.wrap "context canceled during retry" (.new "context canceled")) ∧
      e.StatusCode = 0 ∧ e.ErrType = "network_error" ∧ e.ErrType ≠ ErrContextCanceled :=
  Request_cancelled_in_backoff
    (NewRestClient "https://api.eu2.coralogix.com/mgmt/openapi" "key" []) 3 1
    { doneInBackoff := fun _ => true, doneAfter := fun _ => false,
      Err := .new "context canceled" }
    "/v3/alert-defs" "POST" true true (fun _ => respond 503 "busy") rfl (by decide) (by decide)
    (fun i hi => ⟨fun h => by omega, rfl⟩)
    (fun i _ => ⟨_, rfl, rfl⟩) rfl

/-! ## C5 -/

/-- C5, as stated, fails: with the backoff unit 2^62 ns and the default three
retries, against a server that always answers 503, the timer before attempt
2 is started with -2^63 ns, not with the exact product 2^62 * 2^1. -/
theorem Request_sleep_wraps :
    Event.sleep 2 (-9223372036854775808) ∈
      ((NewRestClient "https://api.eu2.coralogix.com/mgmt/openapi" "key"
        [WithBackoff 4611686018427387904]).Request (some quietContext) "/v3/alert-defs" "GET"
        false false (fun _ => respond 503 "busy")).trace ∧
    (NewRestClient "https://api.eu2.coralogix.com/mgmt/openapi" "key"
      [WithBackoff 4611686018427387904]).backoff = 4611686018427387904 ∧
    (2 : Int) ≤ (NewRestClient "https://api.eu2.coralogix.com/mgmt/openapi" "key"
      [WithBackoff 4611686018427387904]).maxRetries ∧
    (-9223372036854775808 : Int) ≠ 4611686018427387904 * 2 ^ (2 - 1) := by
  refine ⟨?_, rfl, by decide, by decide⟩
  simp [RestClient.Request, NewRestClient, WithBackoff, config.Defaults.MaxRetries, retryLoop,
    quietContext, doRequest, respond, shouldRetry, GoError.asSDKError, NewSDKError,
    SDKError.StatusCode, backoffSleep, shiftLeftOne, wrapInt64]

/-- C5, amended: for a positive backoff unit b, every timer Request starts is
started for a retry attempt a with 1 ≤ a ≤ maxRetries, with the duration
b * 2^(a-1) wrapped to a signed 64-bit value, which is exactly b * 2^(a-1)
nanoseconds whenever that product is below 2^63; every attempt a ≥ 1 that is
made comes right after that timer, and no timer is started for attempt 0. -/
theorem Request_sleep_durations (rc : RestClient) (ctx : Option Context)
    (path method : String) (hasIn hasOut : Bool) (world : Nat → Exchange)
    (hb : 0 < rc.backoff) :
    (∀ a d, Event.sleep a d ∈ (rc.Request ctx path method hasIn hasOut world).trace →
      1 ≤ a ∧ (a : Int) ≤ rc.maxRetries ∧
      d = wrapInt64 (rc.backoff * 2 ^ (a - 1)) ∧
      (rc.backoff * 2 ^ (a - 1) < 2 ^ 63 → d = rc.backoff * 2 ^ (a - 1))) ∧
    (∀ a s, Event.attempt a s ∈ (rc.Request ctx path method hasIn hasOut world).trace →
      1 ≤ a → ∃ d pre post,
        (rc.Request ctx path method hasIn hasOut world).trace =
          pre ++ Event.sleep a d :: Event.attempt a s :: post ∧
        d = wrapInt64 (rc.backoff * 2 ^ (a - 1)) ∧
        (rc.backoff * 2 ^ (a - 1) < 2 ^ 63 → d = rc.backoff * 2 ^ (a - 1))) ∧
    (∀ d, Event.sleep 0 d ∉ (rc.Request ctx path method hasIn hasOut world).trace) := by
  cases ctx with
  | none => simp [RestClient.Request]
  | some c =>
    simp only [RestClient.Request]
    refine ⟨?_, ?_, ?_⟩
    · intro a d hmem
      obtain ⟨h0, _, hlt, hd⟩ :=
        retryLoop_sleep_mem rc c path method hasIn hasOut world a d _ _ _ hmem
      refine ⟨h0, by omega, by rw [hd, backoffSleep_eq_wrap], fun hfit => ?_⟩
      rw [hd]
      exact backoffSleep_exact rc a hb hfit
    · intro a s hmem ha
      obtain ⟨pre, post, hpp⟩ :=
        retryLoop_attempt_after_sleep rc c path method hasIn hasOut world a s ha _ _ _ hmem
      exact ⟨_, pre, post, hpp, backoffSleep_eq_wrap rc a,
        fun hfit => backoffSleep_exact rc a hb hfit⟩
    · intro d hmem
      have := (retryLoop_sleep_mem rc c path method hasIn hasOut world 0 d _ _ _ hmem).1
      omega

/-- Witness of C5: the default client (100 ms, three retries) against a
server that always answers 503 sleeps 200 ms before attempt 2. -/
theorem Request_sleep_durations_witness :
    1 ≤ 2 ∧ ((2 : Nat) : Int) ≤
      (NewRestClient "https://api.eu2.coralogix.com/mgmt/openapi" "key" []).maxRetries ∧
    (200000000 : Int) = wrapInt64
      ((NewRestClient "https://api.eu2.coralogix.com/mgmt/openapi" "key" []).backoff *
        2 ^ (2 - 1)) ∧
    ((NewRestClient "https://api.eu2.coralogix.com/mgmt/openapi" "key" []).backoff * 2 ^ (2 - 1)
        < 2 ^ 63 →
      (200000000 : Int) =
        (NewRestClient "https://api.eu2.coralogix.com/mgmt/openapi" "key" []).backoff *
          2 ^ (2 - 1)) :=
  (Request_sleep_durations (NewRestClient "https://api.eu2.coralogix.com/mgmt/openapi" "key" [])
    (some quietContext) "/v3/alert-defs" "GET" false false (fun _ => respond 503 "busy")
    (by decide)).1 2 200000000 (by
      have h : (3 + 1 : Int).toNat = 4 := rfl
      simp only [RestClient.Request, NewRestClient, List.foldl, config.Defaults.MaxRetries, h,
        retryLoop]
      simp [quietContext, doRequest, respond, shouldRetry, GoError.asSDKError, NewSDKError,
        SDKError.StatusCode, backoffSleep, shiftLeftOne, wrapInt64, config.Defaults.Backoff,
        config.Millisecond])

/-! ## C6 -/

/-- C6: local failures are invalid_input and are not retried.  (a) With a nil
context Request returns the SDKError of NewInputError, of type invalid_input,
and makes no attempt.  (b) When json.Marshal fails on a present payload,
doRequest returns an SDKError of type invalid_input that wraps the cause, and
Request (maxRetries ≥ 0, any context) returns that error after exactly one
attempt. -/
theorem Request_local_failures (rc : RestClient) (path method : String) (hasOut : Bool)
    (world : Nat → Exchange) :
    (∀ hasIn, ∃ e : SDKError,
      (rc.Request none path method hasIn hasOut world).err = some (.sdk e) ∧
      e = NewInputError (.new "context cannot be nil") ∧
      e.ErrType = "invalid_input" ∧
      attemptCount (rc.Request none path method hasIn hasOut world).trace = 0) ∧
    (∀ (ctx : Context) (cause : GoError), 0 ≤ rc.maxRetries →
      (world 0).marshal = .error cause →
      ∃ e : SDKError,
        (doRequest rc path method true hasOut (world 0)).err = some (.sdk e) ∧
        e = NewInputError (.wrap "marshal payload" cause) ∧
        e.ErrType = "invalid_input" ∧ e.StatusCode = 0 ∧
        e.Unwrap.Unwrap = some cause ∧
        (rc.Request (some ctx) path method true hasOut world).err = some (.sdk e) ∧
        attemptCount (rc.Request (some ctx) path method true hasOut world).trace = 1) := by
  refine ⟨fun hasIn => ⟨_, rfl, rfl, rfl, rfl⟩, ?_⟩
  intro ctx cause hN hm
  have hd : (doRequest rc path method true hasOut (world 0)).err =
      some (.sdk (NewInputError (.wrap "marshal payload" cause))) := by
    simp [doRequest, hm, Except.map]
  have hrem : (rc.maxRetries + 1).toNat = (rc.maxRetries.toNat) + 1 := by omega
  have hrun := retryLoop_final rc ctx path method true hasOut world rc.maxRetries.toNat 0 none
    (fun h => absurd h (Nat.lt_irrefl 0)) (by
      intro e he
      rw [hd] at he
      cases he
      rfl)
  refine ⟨_, hd, rfl, rfl, rfl, rfl, ?_, ?_⟩
  · simp only [RestClient.Request, hrem, hrun, hd]
  · simp only [RestClient.Request, hrem, hrun]
    simp [attemptCount]

/-- Witness of C6: the default client, a present payload that json.Marshal
rejects: one attempt, and the invalid_input error comes back. -/
theorem Request_local_failures_witness :
    ∃ e : SDKError,
      (doRequest (NewRestClient "https://api.eu2.coralogix.com/mgmt/openapi" "key" [])
        "/v3/alert-defs" "POST" true true
        { respond 200 "" with marshal := .error (.new "json: unsupported type: chan int") }).err
        = some (.sdk e) ∧
      e = NewInputError (.wrap "marshal payload" (.new "json: unsupported type: chan int")) ∧
      e.ErrType = "invalid_input" ∧ e.StatusCode = 0 ∧
      e.Unwrap.Unwrap = some (.new "json: unsupported type: chan int") ∧
      ((NewRestClient "https://api.eu2.coralogix.com/mgmt/openapi" "key" []).Request
        (some quietContext) "/v3/alert-defs" "POST" true true
        (fun _ => { respond 200 "" with
          marshal := .error (.new "json: unsupported type: chan int") })).err = some (.sdk e) ∧
      attemptCount ((NewRestClient "https://api.eu2.coralogix.com/mgmt/openapi" "key" []).Request
        (some quietContext) "/v3/alert-defs" "POST" true true
        (fun _ => { respond 200 "" with
          marshal := .error (.new "json: unsupported type: chan int") })).trace = 1 :=
  (Request_local_failures (NewRestClient "https://api.eu2.coralogix.com/mgmt/openapi" "key" [])
    "/v3/alert-defs" "POST" true
    (fun _ => { respond 200 "" with
      marshal := .error (.new "json: unsupported type: chan int") })).2
    quietContext (.new "json: unsupported type: chan int") (by decide) rfl

/-! ## C7 -/

/-- C7: the request doRequest hands to the HTTP client carries
Authorization = "Bearer " + apiKey and Content-Type = "application/json",
unless a custom header has that header name (in the canonical form
Header.Set gives every key), in which case the value sent is the value of
such a custom header. -/
theorem doRequest_headers (rc : RestClient) (path method : String) (hasIn hasOut : Bool)
    (x : Exchange) (req : http.Request)
    (hsent : (doRequest rc path method hasIn hasOut x).sent = some req) :
    ((∀ kv ∈ rc.headers, http.CanonicalMIMEHeaderKey kv.1 ≠ "Authorization") →
      req.Header.lookup "Authorization" = some ("Bearer " ++ rc.apiKey)) ∧
    ((∃ kv ∈ rc.headers, http.CanonicalMIMEHeaderKey kv.1 = "Authorization") →
      ∃ kv ∈ rc.headers, http.CanonicalMIMEHeaderKey kv.1 = "Authorization" ∧
        req.Header.lookup "Authorization" = some kv.2) ∧
    ((∀ kv ∈ rc.headers, http.CanonicalMIMEHeaderKey kv.1 ≠ "Content-Type") →
      req.Header.lookup "Content-Type" = some "application/json") ∧
    ((∃ kv ∈ rc.headers, http.CanonicalMIMEHeaderKey kv.1 = "Content-Type") →
      ∃ kv ∈ rc.headers, http.CanonicalMIMEHeaderKey kv.1 = "Content-Type" ∧
        req.Header.lookup "Content-Type" = some kv.2) := by
  obtain ⟨body, hreq⟩ := doRequest_sent rc path method hasIn hasOut x req hsent
  subst hreq
  have key : ∀ name : String,
      ((∀ kv ∈ rc.headers, http.CanonicalMIMEHeaderKey kv.1 ≠ name) →
        overriding name rc.headers = none) ∧
      ((∃ kv ∈ rc.headers, http.CanonicalMIMEHeaderKey kv.1 = name) →
        ∃ kv ∈ rc.headers, http.CanonicalMIMEHeaderKey kv.1 = name ∧
          overriding name rc.headers = some kv.2) := by
    intro name
    refine ⟨(overriding_eq_none name rc.headers).2, ?_⟩
    rintro ⟨kv, hm, hk⟩
    cases ho : overriding name rc.headers with
    | none => exact absurd hk ((overriding_eq_none name rc.headers).1 ho kv hm)
    | some v =>
      obtain ⟨kv2, hm2, hk2, hv2⟩ := overriding_eq_some name v rc.headers ho
      exact ⟨kv2, hm2, hk2, by rw [hv2]⟩
  refine ⟨?_, ?_, ?_, ?_⟩
  · intro h
    rw [buildRequest_lookup, (key _).1 h]
    rfl
  · intro h
    obtain ⟨kv, hm, hk, ho⟩ := (key _).2 h
    exact ⟨kv, hm, hk, by rw [buildRequest_lookup, ho]⟩
  · intro h
    rw [buildRequest_lookup, (key _).1 h]
    rfl
  · intro h
    obtain ⟨kv, hm, hk, ho⟩ := (key _).2 h
    exact ⟨kv, hm, hk, by rw [buildRequest_lookup, ho]⟩

/-- Witness of C7: a client with the custom header authorization: Basic abc
sends that value under Authorization and the default Content-Type. -/
theorem doRequest_headers_witness :
    (buildRequest (NewRestClient "https://api.eu2.coralogix.com/mgmt/openapi" "key"
      [WithHeader "authorization" "Basic abc"]) "/v3/alert-defs" "POST"
      (some "null")).Header.lookup "Authorization" = some "Basic abc" ∧
    (buildRequest (NewRestClient "https://api.eu2.coralogix.com/mgmt/openapi" "key"
      [WithHeader "authorization" "Basic abc"]) "/v3/alert-defs" "POST"
      (some "null")).Header.lookup "Content-Type" = some "application/json" := by
  have h := doRequest_headers (NewRestClient "https://api.eu2.coralogix.com/mgmt/openapi" "key"
    [WithHeader "authorization" "Basic abc"]) "/v3/alert-defs" "POST" true true
    (respond 200 "null") _ rfl
  have hh : (NewRestClient "https://api.eu2.coralogix.com/mgmt/openapi" "key"
      [WithHeader "authorization" "Basic abc"]).headers = [("authorization", "Basic abc")] := rfl
  obtain ⟨kv, hm, _, hl⟩ := h.2.1 ⟨("authorization", "Basic abc"), by rw [hh]; simp, by decide⟩
  rw [hh, List.mem_singleton] at hm
  subst hm
  refine ⟨hl, h.2.2.1 ?_⟩
  intro kv hm
  rw [hh, List.mem_singleton] at hm
  subst hm
  decide

/-! ## C8 -/

/-- C8: for every list of option calls, the ClientCreator of NewClientCreator
and the RestClient of NewRestClient have timeout > 0, backoff > 0 and
maxRetries ≥ 0; an option with a non-positive duration or a negative retry
count returns the struct it is given unchanged, so appending it changes
nothing, and a field for which the list holds no accepted option has its
default, 5 s, 100 ms or 3. -/
theorem options_keep_configuration_valid (region apiKey baseURL : String)
    (calls : List sdk.OptionCall) :
    (0 < (sdk.NewClientCreator region apiKey (calls.map sdk.OptionCall.toClientOption)).timeout ∧
      0 < (sdk.NewClientCreator region apiKey (calls.map sdk.OptionCall.toClientOption)).backoff ∧
      0 ≤ (sdk.NewClientCreator region apiKey
        (calls.map sdk.OptionCall.toClientOption)).maxRetries) ∧
    (0 < (NewRestClient baseURL apiKey
        (calls.map sdk.OptionCall.toRestClientOption)).httpClient.Timeout ∧
      0 < (NewRestClient baseURL apiKey (calls.map sdk.OptionCall.toRestClientOption)).backoff ∧
      0 ≤ (NewRestClient baseURL apiKey
        (calls.map sdk.OptionCall.toRestClientOption)).maxRetries) ∧
    (∀ o : sdk.OptionCall, o.rejected = true →
      (∀ cc, o.toClientOption cc = cc) ∧ (∀ rc, o.toRestClientOption rc = rc) ∧
      sdk.NewClientCreator region apiKey ((calls ++ [o]).map sdk.OptionCall.toClientOption) =
        sdk.NewClientCreator region apiKey (calls.map sdk.OptionCall.toClientOption) ∧
      NewRestClient baseURL apiKey ((calls ++ [o]).map sdk.OptionCall.toRestClientOption) =
        NewRestClient baseURL apiKey (calls.map sdk.OptionCall.toRestClientOption)) ∧
    ((∀ d, sdk.OptionCall.timeout d ∈ calls → d ≤ 0) →
      (sdk.NewClientCreator region apiKey (calls.map sdk.OptionCall.toClientOption)).timeout
        = 5000000000 ∧
      (NewRestClient baseURL apiKey
        (calls.map sdk.OptionCall.toRestClientOption)).httpClient.Timeout = 5000000000) ∧
    ((∀ d, sdk.OptionCall.backoff d ∈ calls → d ≤ 0) →
      (sdk.NewClientCreator region apiKey (calls.map sdk.OptionCall.toClientOption)).backoff
        = 100000000 ∧
      (NewRestClient baseURL apiKey (calls.map sdk.OptionCall.toRestClientOption)).backoff
        = 100000000) ∧
    ((∀ n, sdk.OptionCall.maxRetries n ∈ calls → n < 0) →
      (sdk.NewClientCreator region apiKey (calls.map sdk.OptionCall.toClientOption)).maxRetries
        = 3 ∧
      (NewRestClient baseURL apiKey (calls.map sdk.OptionCall.toRestClientOption)).maxRetries
        = 3) := by
  have hrej := fun o h => rejected_is_identity o h
  refine ⟨?_, ?_, ?_, ?_, ?_, ?_⟩
  · exact ClientCreator_options_valid calls _ defaults_valid
  · exact RestClient_options_valid calls _ defaults_valid
  · intro o ho
    refine ⟨(hrej o ho).1, (hrej o ho).2, ?_, ?_⟩
    · simp only [sdk.NewClientCreator, List.map_append, List.foldl_append, List.map_cons,
        List.map_nil, List.foldl_cons, List.foldl_nil, (hrej o ho).1]
    · simp only [NewRestClient, List.map_append, List.foldl_append, List.map_cons,
        List.map_nil, List.foldl_cons, List.foldl_nil, (hrej o ho).2]
  · intro h
    exact ⟨(ClientCreator_options_keep calls _).1 h, (RestClient_options_keep calls _).1 h⟩
  · intro h
    exact ⟨(ClientCreator_options_keep calls _).2.1 h, (RestClient_options_keep calls _).2.1 h⟩
  · intro h
    exact ⟨(ClientCreator_options_keep calls _).2.2 h, (RestClient_options_keep calls _).2.2 h⟩

/-- Witness of C8: a valid timeout, a negative retry count and a zero backoff:
the timeout is taken, the other two fields keep their defaults. -/
theorem options_keep_configuration_valid_witness :
    (sdk.NewClientCreator "eu2" "key"
      [sdk.WithTimeout 10000000000, sdk.WithMaxRetries (-1), sdk.WithBackoff 0]).timeout
        = 10000000000 ∧
    (sdk.NewClientCreator "eu2" "key"
      [sdk.WithTimeout 10000000000, sdk.WithMaxRetries (-1), sdk.WithBackoff 0]).maxRetries = 3 ∧
    (sdk.NewClientCreator "eu2" "key"
      [sdk.WithTimeout 10000000000, sdk.WithMaxRetries (-1), sdk.WithBackoff 0]).backoff
        = 100000000 ∧
    0 < (sdk.NewClientCreator "eu2" "key"
      ([sdk.OptionCall.timeout 10000000000, sdk.OptionCall.maxRetries (-1),
        sdk.OptionCall.backoff 0].map sdk.OptionCall.toClientOption)).backoff :=
  ⟨rfl, rfl, rfl,
    (options_keep_configuration_valid "eu2" "key" "https://api.eu2.coralogix.com/mgmt/openapi"
      [sdk.OptionCall.timeout 10000000000, sdk.OptionCall.maxRetries (-1),
        sdk.OptionCall.backoff 0]).1.2.1⟩

/-! ## C9 -/

/-- C9, as stated, fails: a response with status 500 whose body cannot be
read gives an SDKError with StatusCode 0, not 500. -/
theorem doRequest_body_read_drops_status :
    ∃ e : SDKError,
      (doRequest (NewRestClient "https://api.eu2.coralogix.com/mgmt/openapi" "key" [])
        "/v3/alert-defs" "GET" false true
        { respond 500 "" with readAll := .error (.new "unexpected EOF") }).err
        = some (.sdk e) ∧
      ({ respond 500 "" with readAll := .error (.new "unexpected EOF") } : Exchange).StatusCode
        = 500 ∧
      e.StatusCode = 0 ∧ e.StatusCode ≠ 500 :=
  ⟨_, rfl, rfl, rfl, by decide⟩

/-- C9, amended: when the response arrived (payload serialised, request
built, Do succeeded) and reading its body fails, doRequest returns the
SDKError NewSDKError(0, "", ...): StatusCode 0 whatever the status of the
response, type network_error, wrapping the read error. -/
theorem doRequest_body_read_failure (rc : RestClient) (path method : String)
    (hasIn hasOut : Bool) (x : Exchange) (cause : GoError)
    (hmarshal : hasIn = true → ∃ b, x.marshal = .ok b)
    (hnew : x.newRequestErr = none) (hdo : x.doErr = none)
    (hread : x.readAll = .error cause) :
    ∃ e : SDKError,
      (doRequest rc path method hasIn hasOut x).err = some (.sdk e) ∧
      e = NewSDKError 0 "" (.wrap "read response body" cause) ∧
      e.StatusCode = 0 ∧ e.ErrType = "network_error" ∧
      e.Unwrap = .wrap "read response body" cause := by
  refine ⟨_, ?_, rfl, rfl, by show getErrorTypeFromStatus 0 = _; decide, rfl⟩
  cases hasIn with
  | false => simp [doRequest, hnew, hdo, hread]
  | true =>
    obtain ⟨b, hb⟩ := hmarshal rfl
    simp [doRequest, hb, Except.map, hnew, hdo, hread]

/-- Witness of C9: a 500 response whose body read ends in an unexpected EOF. -/
theorem doRequest_body_read_failure_witness :
    ∃ e : SDKError,
      (doRequest (NewRestClient "https://api.eu2.coralogix.com/mgmt/openapi" "key" [])
        "/v3/alert-defs" "GET" false true
        { respond 500 "" with readAll := .error (.new "unexpected EOF") }).err
        = some (.sdk e) ∧
      e = NewSDKError 0 "" (.wrap "read response body" (.new "unexpected EOF")) ∧
      e.StatusCode = 0 ∧ e.ErrType = "network_error" ∧
      e.Unwrap = .wrap "read response body" (.new "unexpected EOF") :=
  doRequest_body_read_failure (NewRestClient "https://api.eu2.coralogix.com/mgmt/openapi" "key" [])
    "/v3/alert-defs" "GET" false true
    { respond 500 "" with readAll := .error (.new "unexpected EOF") } (.new "unexpected EOF")
    (fun h => by cases h) rfl rfl rfl

/-! ## C10 -/

/-- C10: with maxRetries = N ≥ 1, a first attempt failing with a status from
600 on gives an SDKError of type server_error that the retry test rejects, so
Request returns it after exactly one attempt; a first attempt failing with
429 or a status in [500,600) gives type rate_limit (429) or server_error
(5xx), the retry test accepts it, and unless the context is seen cancelled a
second attempt is made. -/
theorem Request_status_above_599 (rc : RestClient) (N : Nat) (ctx : Context)
    (path method : String) (hasIn hasOut : Bool) (world : Nat → Exchange)
    (hN : rc.maxRetries = (N : Int)) (h1 : 1 ≤ N) :
    (∀ e : SDKError, (doRequest rc path method hasIn hasOut (world 0)).err = some (.sdk e) →
      600 ≤ e.StatusCode →
      e.ErrType = "server_error" ∧ shouldRetry (.sdk e) = false ∧
      (rc.Request (some ctx) path method hasIn hasOut world).err = some (.sdk e) ∧
      attemptCount (rc.Request (some ctx) path method hasIn hasOut world).trace = 1) ∧
    (∀ e : SDKError, (doRequest rc path method hasIn hasOut (world 0)).err = some (.sdk e) →
      (e.StatusCode = 429 ∨ (500 ≤ e.StatusCode ∧ e.StatusCode < 600)) →
      (e.ErrType = if e.StatusCode = 429 then "rate_limit" else "server_error") ∧
      shouldRetry (.sdk e) = true ∧
      (ctx.doneAfter 0 = false → ctx.doneInBackoff 1 = false →
        2 ≤ attemptCount (rc.Request (some ctx) path method hasIn hasOut world).trace)) := by
  have hreq : rc.Request (some ctx) path method hasIn hasOut world =
      retryLoop rc ctx path method hasIn hasOut world (N + 1) 0 none := by
    simp [RestClient.Request, hN]
  refine ⟨?_, ?_⟩
  · intro e he h600
    have hty : e.ErrType = "server_error" := by
      rw [doRequest_err_type rc path method hasIn hasOut (world 0) e he (by omega)]
      unfold getErrorTypeFromStatus
      rw [if_neg (by omega), if_pos (by omega)]
      rfl
    have hsr : shouldRetry (.sdk e) = false := by
      rw [Bool.eq_false_iff]
      intro h
      rw [shouldRetry_sdk] at h
      omega
    have hrun := retryLoop_final rc ctx path method hasIn hasOut world N 0 none
      (fun h => absurd h (Nat.lt_irrefl 0)) (by
        intro e2 he2
        rw [he] at he2
        cases he2
        exact hsr)
    refine ⟨hty, hsr, ?_, ?_⟩
    · rw [hreq, hrun, he]
    · rw [hreq, hrun]
      simp [attemptCount]
  · intro e he hs
    have hsr : shouldRetry (.sdk e) = true := (shouldRetry_sdk e).2 hs
    refine ⟨?_, hsr, ?_⟩
    · rw [doRequest_err_type rc path method hasIn hasOut (world 0) e he (by omega)]
      unfold getErrorTypeFromStatus StatusBadRequest StatusUnauthorized StatusForbidden
        StatusNotFound StatusTooManyRequests
      rcases hs with h429 | h5
      · rw [h429]; decide
      · rw [if_neg (by omega), if_pos (by omega), if_neg (by omega)]
        rfl
    · intro hafter hback
      obtain ⟨n, hn⟩ : ∃ n, N = n + 1 := ⟨N - 1, by omega⟩
      have hq : ctx.quietDuring 0 1 := by
        intro i hi
        have : i = 0 := by omega
        subst this
        exact ⟨fun h => absurd h (Nat.lt_irrefl 0), hafter⟩
      have hr : ∀ i, i < 1 → ∃ e2,
          (doRequest rc path method hasIn hasOut (world (0 + i))).err = some e2 ∧
            shouldRetry e2 = true := by
        intro i hi
        have : i = 0 := by omega
        subst this
        exact ⟨_, he, hsr⟩
      have hrun := retryLoop_retried rc ctx path method hasIn hasOut world N 1 0 none hq hr
      rw [hreq, hrun, attemptCount_append, attemptCount_retriedPrefix]
      have := retryLoop_attempts_pos rc ctx path method hasIn hasOut world n (0 + 1)
        (lastErrAfter rc path method hasIn hasOut world 1 0 none) (fun _ => hback)
      rw [hn]
      omega

/-- Witness of C10: the default client and a server that answers 600: one
attempt, and the server_error comes back. -/
theorem Request_status_above_599_witness :
    (NewSDKError 600 "odd" (.new ("unexpected status code: " ++ toString (600 : Int)))).ErrType
      = "server_error" ∧
    shouldRetry (.sdk (NewSDKError 600 "odd"
      (.new ("unexpected status code: " ++ toString (600 : Int))))) = false ∧
    ((NewRestClient "https://api.eu2.coralogix.com/mgmt/openapi" "key" []).Request
      (some quietContext) "/v3/alert-defs" "GET" false true (fun _ => respond 600 "odd")).err =
      some (.sdk (NewSDKError 600 "odd"
        (.new ("unexpected status code: " ++ toString (600 : Int))))) ∧
    attemptCount ((NewRestClient "https://api.eu2.coralogix.com/mgmt/openapi" "key" []).Request
      (some quietContext) "/v3/alert-defs" "GET" false true
      (fun _ => respond 600 "odd")).trace = 1 :=
  (Request_status_above_599 (NewRestClient "https://api.eu2.coralogix.com/mgmt/openapi" "key" [])
    3 quietContext "/v3/alert-defs" "GET" false true (fun _ => respond 600 "odd") rfl
    (by decide)).1 _ rfl (by decide)

/-! ## Lemmas on the factory -/

theorem foldl_append_singleton_map {α β : Type} (f : α → β) (l : List α) :
    ∀ base : List β, l.foldl (fun acc a => acc ++ [f a]) base = base ++ l.map f := by
  induction l with
  | nil => intro base; simp
  | cons a rest ih => intro base; simp [List.foldl, ih]

/-- Applying the header options of a visit sets exactly the visited entries,
one map assignment each, and touches no other field. -/
theorem foldl_WithHeader (visit : List (String × String)) :
    ∀ rc0 : RestClient,
      (visit.map (fun kv => WithHeader kv.1 kv.2)).foldl (fun client option => option client) rc0 =
        { rc0 with headers := visit.foldl (fun m kv => mapSet m kv.1 kv.2) rc0.headers } := by
  induction visit with
  | nil => intro rc0; rfl
  | cons kv rest ih =>
    intro rc0
    simp only [List.map_cons, List.foldl_cons, ih, WithHeader]

theorem mapSet_fresh (m : List (String × String)) (key value : String)
    (h : ∀ p ∈ m, p.1 ≠ key) : mapSet m key value = m ++ [(key, value)] := by
  unfold mapSet
  rw [if_neg]
  simp only [List.any_eq_true, beq_iff_eq, not_exists, not_and]
  exact fun p hp => h p hp

/-- Assigning entries with pairwise different keys, none of them in the map
yet, appends them in order. -/
theorem foldl_mapSet_fresh (visit : List (String × String)) :
    ∀ acc : List (String × String),
      (∀ kv ∈ visit, ∀ p ∈ acc, p.1 ≠ kv.1) → (visit.map Prod.fst).Nodup →
      visit.foldl (fun m kv => mapSet m kv.1 kv.2) acc = acc ++ visit := by
  induction visit with
  | nil => intro acc _ _; simp
  | cons kv rest ih =>
    intro acc hfresh hnd
    rw [List.map_cons, List.nodup_cons] at hnd
    rw [List.foldl_cons, mapSet_fresh acc kv.1 kv.2 (hfresh kv (List.mem_cons_self _ _))]
    rw [ih _ ?_ hnd.2]
    · simp
    · intro kv2 hkv2 p hp
      rw [List.mem_append, List.mem_singleton] at hp
      rcases hp with hp | hp
      · exact hfresh kv2 (List.mem_cons_of_mem _ hkv2) p hp
      · rw [hp]
        intro heq
        exact hnd.1 (heq ▸ List.mem_map_of_mem Prod.fst hkv2)

theorem mapSet_keys_nodup (m : List (String × String)) (key value : String)
    (h : (m.map Prod.fst).Nodup) : ((mapSet m key value).map Prod.fst).Nodup := by
  unfold mapSet
  split
  · have hk : (m.map (fun p => if p.1 == key then (key, value) else p)).map Prod.fst
        = m.map Prod.fst := by
      rw [List.map_map]
      apply List.map_congr_left
      intro p _
      by_cases hp : p.1 = key
      · simp [hp]
      · simp [hp]
    rw [hk]
    exact h
  · rename_i hany
    rw [List.map_append, List.nodup_append]
    refine ⟨h, by simp, ?_⟩
    intro a ha hb
    simp only [List.map_cons, List.map_nil, List.mem_singleton] at hb
    subst hb
    apply hany
    obtain ⟨p, hp, hpa⟩ := List.mem_map.1 ha
    simp only [List.any_eq_true, beq_iff_eq]
    exact ⟨p, hp, hpa⟩

/-- The header map of a ClientCreator built from option calls has each key
once. -/
theorem ClientCreator_headers_nodup (calls : List sdk.OptionCall) :
    ∀ cc0 : sdk.ClientCreator, (cc0.headers.map Prod.fst).Nodup →
      (((calls.map sdk.OptionCall.toClientOption).foldl
        (fun cc option => option cc) cc0).headers.map Prod.fst).Nodup := by
  induction calls with
  | nil => intro cc0 h; exact h
  | cons o rest ih =>
    intro cc0 h
    simp only [List.map_cons, List.foldl_cons]
    apply ih
    cases o with
    | timeout d => simp only [sdk.OptionCall.toClientOption, sdk.WithTimeout]; split <;> exact h
    | maxRetries n =>
      simp only [sdk.OptionCall.toClientOption, sdk.WithMaxRetries]; split <;> exact h
    | backoff d => simp only [sdk.OptionCall.toClientOption, sdk.WithBackoff]; split <;> exact h
    | header k v => exact mapSet_keys_nodup _ k v h

/-- Options of a ClientCreator leave region, api key, base URL and the
memoised client as they are. -/
theorem ClientCreator_options_fixed (calls : List sdk.OptionCall) :
    ∀ cc0 : sdk.ClientCreator,
      ((calls.map sdk.OptionCall.toClientOption).foldl
        (fun cc option => option cc) cc0).baseURL = cc0.baseURL ∧
      ((calls.map sdk.OptionCall.toClientOption).foldl
        (fun cc option => option cc) cc0).apiKey = cc0.apiKey ∧
      ((calls.map sdk.OptionCall.toClientOption).foldl
        (fun cc option => option cc) cc0).restClient = cc0.restClient := by
  induction calls with
  | nil => intro cc0; exact ⟨rfl, rfl, rfl⟩
  | cons o rest ih =>
    intro cc0
    simp only [List.map_cons, List.foldl_cons]
    obtain ⟨h1, h2, h3⟩ := ih (o.toClientOption cc0)
    rw [h1, h2, h3]
    cases o with
    | timeout d =>
      simp only [sdk.OptionCall.toClientOption, sdk.WithTimeout]
      split <;> exact ⟨rfl, rfl, rfl⟩
    | maxRetries n =>
      simp only [sdk.OptionCall.toClientOption, sdk.WithMaxRetries]
      split <;> exact ⟨rfl, rfl, rfl⟩
    | backoff d =>
      simp only [sdk.OptionCall.toClientOption, sdk.WithBackoff]
      split <;> exact ⟨rfl, rfl, rfl⟩
    | header k v => exact ⟨rfl, rfl, rfl⟩

/-- The RestClient built from the options of a valid ClientCreator, for any
visit of entries with pairwise different keys. -/
theorem NewRestClient_restClientOptions (cc : sdk.ClientCreator)
    (visit : List (String × String))
    (hvalid : 0 < cc.timeout ∧ 0 < cc.backoff ∧ 0 ≤ cc.maxRetries)
    (hnd : (visit.map Prod.fst).Nodup) :
    NewRestClient cc.baseURL cc.apiKey (cc.restClientOptions visit) =
      { base := cc.baseURL, apiKey := cc.apiKey, httpClient := { Timeout := cc.timeout },
        maxRetries := cc.maxRetries, backoff := cc.backoff, headers := visit } := by
  obtain ⟨ht, hb, hm⟩ := hvalid
  have hm' : cc.maxRetries ≥ 0 := hm
  have hheaders : visit.foldl (fun m kv => mapSet m kv.1 kv.2) [] = visit := by
    rw [foldl_mapSet_fresh visit [] (fun _ _ p hp => absurd hp (List.not_mem_nil p)) hnd]
    rfl
  unfold sdk.ClientCreator.restClientOptions NewRestClient
  simp only [foldl_append_singleton_map, List.foldl_append, foldl_WithHeader]
  by_cases h1 : cc.timeout = config.Defaults.Timeout <;>
    by_cases h2 : cc.maxRetries = config.Defaults.MaxRetries <;>
    by_cases h3 : cc.backoff = config.Defaults.Backoff <;>
    simp [h1, h2, h3, WithTimeout, WithMaxRetries, WithBackoff, ht, hb, hm', hheaders]

/-- A ClientCreator that holds a RestClient returns it and stays as it is,
whatever its other fields are. -/
theorem createRestClient_memoised (cc : sdk.ClientCreator) (rc : RestClient)
    (h : cc.restClient = some rc) : cc.createRestClient = (rc, cc) := by
  unfold sdk.ClientCreator.createRestClient
  rw [h]

/-! ## C11 -/

/-- C11: for the ClientCreator cc of NewClientCreator on any region, api key
and option list, the RestClient of the first createRestClient call has base
URL, api key, maxRetries, backoff, timeout and custom headers equal to the
fields of cc (in whatever order `range` visits the header map), although
timeout, maxRetries and backoff are forwarded only when they differ from the
defaults; the call stores that RestClient in cc.  Every later call returns
the stored RestClient without rebuilding it: on the ClientCreator the first
call leaves, also after further options have changed its fields,
createRestClient returns that RestClient, Alerts and Webhooks return clients
that hold it (with the paths /v3/alert-defs and /v1/outgoing-webhooks), and
the ClientCreator is left as it is; more generally every ClientCreator that
holds a RestClient returns the one it holds. -/
theorem createRestClient_carries_configuration (region apiKey : String)
    (calls : List sdk.OptionCall) (cc : sdk.ClientCreator)
    (hcc : cc = sdk.NewClientCreator region apiKey (calls.map sdk.OptionCall.toClientOption)) :
    (cc.createRestClient.1.base = cc.baseURL ∧
      cc.createRestClient.1.base = config.GetBaseURL region ∧
      cc.createRestClient.1.apiKey = cc.apiKey ∧
      cc.createRestClient.1.apiKey = apiKey ∧
      cc.createRestClient.1.maxRetries = cc.maxRetries ∧
      cc.createRestClient.1.backoff = cc.backoff ∧
      cc.createRestClient.1.httpClient.Timeout = cc.timeout ∧
      cc.createRestClient.1.headers = cc.headers) ∧
    (∀ visit : List (String × String), visit.Perm cc.headers →
      NewRestClient cc.baseURL cc.apiKey (cc.restClientOptions visit) =
        { cc.createRestClient.1 with headers := visit }) ∧
    cc.createRestClient.2 = { cc with restClient := some cc.createRestClient.1 } ∧
    cc.createRestClient.2.createRestClient = (cc.createRestClient.1, cc.createRestClient.2) ∧
    (∀ later : List sdk.OptionCall,
      ((later.map sdk.OptionCall.toClientOption).foldl (fun c option => option c)
        cc.createRestClient.2).createRestClient =
        (cc.createRestClient.1,
          (later.map sdk.OptionCall.toClientOption).foldl (fun c option => option c)
            cc.createRestClient.2) ∧
      ((later.map sdk.OptionCall.toClientOption).foldl (fun c option => option c)
        cc.createRestClient.2).Alerts.1.rest = cc.createRestClient.1 ∧
      ((later.map sdk.OptionCall.toClientOption).foldl (fun c option => option c)
        cc.createRestClient.2).Alerts.1.path = "/v3/alert-defs" ∧
      ((later.map sdk.OptionCall.toClientOption).foldl (fun c option => option c)
        cc.createRestClient.2).Alerts.2 =
        (later.map sdk.OptionCall.toClientOption).foldl (fun c option => option c)
          cc.createRestClient.2 ∧
      ((later.map sdk.OptionCall.toClientOption).foldl (fun c option => option c)
        cc.createRestClient.2).Webhooks.1.restClient = cc.createRestClient.1 ∧
      ((later.map sdk.OptionCall.toClientOption).foldl (fun c option => option c)
        cc.createRestClient.2).Webhooks.1.path = "/v1/outgoing-webhooks" ∧
      ((later.map sdk.OptionCall.toClientOption).foldl (fun c option => option c)
        cc.createRestClient.2).Webhooks.2 =
        (later.map sdk.OptionCall.toClientOption).foldl (fun c option => option c)
          cc.createRestClient.2) ∧
    (∀ (held : sdk.ClientCreator) (rc : RestClient), held.restClient = some rc →
      held.createRestClient = (rc, held) ∧
      held.Alerts.1.rest = rc ∧ held.Alerts.2 = held ∧
      held.Webhooks.1.restClient = rc ∧ held.Webhooks.2 = held) := by
  have hvalid : 0 < cc.timeout ∧ 0 < cc.backoff ∧ 0 ≤ cc.maxRetries := by
    rw [hcc]
    exact ClientCreator_options_valid calls _ defaults_valid
  have hnd : (cc.headers.map Prod.fst).Nodup := by
    rw [hcc]
    exact ClientCreator_headers_nodup calls _ List.nodup_nil
  have hfixed := ClientCreator_options_fixed calls
    { region := region, apiKey := apiKey, baseURL := config.GetBaseURL region,
      timeout := config.Defaults.Timeout, maxRetries := config.Defaults.MaxRetries,
      backoff := config.Defaults.Backoff, headers := [], restClient := none }
  have hbase : cc.baseURL = config.GetBaseURL region := by rw [hcc]; exact hfixed.1
  have hkey : cc.apiKey = apiKey := by rw [hcc]; exact hfixed.2.1
  have hnil : cc.restClient = none := by rw [hcc]; exact hfixed.2.2
  have hfirst : cc.createRestClient =
      (NewRestClient cc.baseURL cc.apiKey (cc.restClientOptions cc.headers),
        { cc with
          restClient :=
            some (NewRestClient cc.baseURL cc.apiKey (cc.restClientOptions cc.headers)) }) := by
    unfold sdk.ClientCreator.createRestClient
    rw [hnil]
  have hrc := NewRestClient_restClientOptions cc cc.headers hvalid hnd
  have hstored : cc.createRestClient.2.restClient = some cc.createRestClient.1 := by
    rw [hfirst]
  have hheld : ∀ (held : sdk.ClientCreator) (rc : RestClient), held.restClient = some rc →
      held.createRestClient = (rc, held) ∧
      held.Alerts.1.rest = rc ∧ held.Alerts.2 = held ∧
      held.Webhooks.1.restClient = rc ∧ held.Webhooks.2 = held := by
    intro held rc h
    have hm := createRestClient_memoised held rc h
    refine ⟨hm, ?_, ?_, ?_, ?_⟩
    · unfold sdk.ClientCreator.Alerts
      rw [hm]
      rfl
    · unfold sdk.ClientCreator.Alerts
      rw [hm]
    · unfold sdk.ClientCreator.Webhooks
      rw [hm]
      rfl
    · unfold sdk.ClientCreator.Webhooks
      rw [hm]
  refine ⟨?_, ?_, ?_, (hheld _ _ hstored).1, ?_, hheld⟩
  · rw [hfirst, hrc]
    exact ⟨rfl, hbase, rfl, hkey, rfl, rfl, rfl, rfl⟩
  · intro visit hperm
    have hnd2 : (visit.map Prod.fst).Nodup := (hperm.map Prod.fst).nodup_iff.2 hnd
    rw [NewRestClient_restClientOptions cc visit hvalid hnd2, hfirst]
    simp only [hrc]
  · rw [hfirst]
  · intro later
    have hl : ((later.map sdk.OptionCall.toClientOption).foldl (fun c option => option c)
        cc.createRestClient.2).restClient = some cc.createRestClient.1 := by
      rw [(ClientCreator_options_fixed later cc.createRestClient.2).2.2, hstored]
    obtain ⟨h1, h2, h3, h4, h5⟩ := hheld _ _ hl
    refine ⟨h1, h2, ?_, h3, h4, ?_, h5⟩
    · show config.GetResourcePath config.V3 config.AlertsPath = "/v3/alert-defs"
      decide
    · show config.GetResourcePath config.V1 config.WebhooksPath = "/v1/outgoing-webhooks"
      decide

/-- Witness of C11: the factory with a valid timeout of 10 s and one custom
header: the transport has the timeout 10 s although only WithTimeout was
forwarded; after WithTimeout(20 s) and WithMaxRetries(7) have changed the
factory, createRestClient still returns the stored transport, with 10 s and
three retries, and so do Alerts and Webhooks. -/
theorem createRestClient_carries_configuration_witness :
    (sdk.NewClientCreator "eu2" "key"
      [sdk.WithTimeout 10000000000, sdk.WithMaxRetries 3, sdk.WithBackoff 100000000,
        sdk.WithHeader "X-Correlation-ID" "42"]).createRestClient.1 =
      { base := "https://api.eu2.coralogix.com/mgmt/openapi", apiKey := "key",
        httpClient := { Timeout := 10000000000 }, maxRetries := 3, backoff := 100000000,
        headers := [("X-Correlation-ID", "42")] } ∧
    (sdk.WithMaxRetries 7 (sdk.WithTimeout 20000000000
      (sdk.NewClientCreator "eu2" "key"
        [sdk.WithTimeout 10000000000, sdk.WithMaxRetries 3, sdk.WithBackoff 100000000,
          sdk.WithHeader "X-Correlation-ID" "42"]).createRestClient.2)).timeout
      = 20000000000 ∧
    (sdk.WithMaxRetries 7 (sdk.WithTimeout 20000000000
      (sdk.NewClientCreator "eu2" "key"
        [sdk.WithTimeout 10000000000, sdk.WithMaxRetries 3, sdk.WithBackoff 100000000,
          sdk.WithHeader "X-Correlation-ID" "42"]).createRestClient.2)).createRestClient.1 =
      { base := "https://api.eu2.coralogix.com/mgmt/openapi", apiKey := "key",
        httpClient := { Timeout := 10000000000 }, maxRetries := 3, backoff := 100000000,
        headers := [("X-Correlation-ID", "42")] } ∧
    (sdk.WithMaxRetries 7 (sdk.WithTimeout 20000000000
      (sdk.NewClientCreator "eu2" "key"
        [sdk.WithTimeout 10000000000, sdk.WithMaxRetries 3, sdk.WithBackoff 100000000,
          sdk.WithHeader "X-Correlation-ID" "42"]).createRestClient.2)).Alerts.1.rest =
      { base := "https://api.eu2.coralogix.com/mgmt/openapi", apiKey := "key",
        httpClient := { Timeout := 10000000000 }, maxRetries := 3, backoff := 100000000,
        headers := [("X-Correlation-ID", "42")] } ∧
    (sdk.WithMaxRetries 7 (sdk.WithTimeout 20000000000
      (sdk.NewClientCreator "eu2" "key"
        [sdk.WithTimeout 10000000000, sdk.WithMaxRetries 3, sdk.WithBackoff 100000000,
          sdk.WithHeader "X-Correlation-ID" "42"]).createRestClient.2)).Webhooks.1.restClient =
      { base := "https://api.eu2.coralogix.com/mgmt/openapi", apiKey := "key",
        httpClient := { Timeout := 10000000000 }, maxRetries := 3, backoff := 100000000,
        headers := [("X-Correlation-ID", "42")] } := by
  have h := createRestClient_carries_configuration "eu2" "key"
    [sdk.OptionCall.timeout 10000000000, sdk.OptionCall.maxRetries 3,
      sdk.OptionCall.backoff 100000000, sdk.OptionCall.header "X-Correlation-ID" "42"]
    _ rfl
  have hfirst : (sdk.NewClientCreator "eu2" "key"
      [sdk.WithTimeout 10000000000, sdk.WithMaxRetries 3, sdk.WithBackoff 100000000,
        sdk.WithHeader "X-Correlation-ID" "42"]).createRestClient.1 =
      { base := "https://api.eu2.coralogix.com/mgmt/openapi", apiKey := "key",
        httpClient := { Timeout := 10000000000 }, maxRetries := 3, backoff := 100000000,
        headers := [("X-Correlation-ID", "42")] } := rfl
  have hl := h.2.2.2.2.1 [sdk.OptionCall.timeout 20000000000, sdk.OptionCall.maxRetries 7]
  exact ⟨hfirst, rfl, (congrArg Prod.fst hl.1).trans hfirst, hl.2.1.trans hfirst,
    hl.2.2.2.2.1.trans hfirst⟩
